import Mathlib

/-!
Verification of the OpenPGP key model of this repository (src/key.js, with the curve
registry of src/crypto/public_key/elliptic/curves.js and the configuration defaults of
src/config/config.js) against its natural-language specification.

Modelling conventions:
* Times are integers counting milliseconds (JavaScript `Date` values coerce to exactly
  this number under comparison and subtraction).
* External cryptographic calls (`signature.verify`, `signature.isExpired`) are oracles
  carried on each signature record: `verifyResult` is the outcome the crypto layer would
  report for the signature against its governing key and data, and `isExpiredF` is the
  packet-layer expiration test.  `verified` and `revoked` are the cache flags the source
  stores on the packet objects.
* The asynchronous fan-out of the source (`Promise.all` over signature lists) joins
  deterministically (spec section 5); it is embedded as a left-to-right fold.
* Monotone cache writes (`verified := true` on a successful verify) are modelled where a
  later read in the same control path observes them; where a claim observes only the
  identity of a signature (issuer, created, raw bytes) the cache write is noted in a
  comment instead of threaded.
* Parts of the repository that the claims depend on but that are not under src/
  (enums.js, util.js, crypto/hash) are modelled from the spec; each such definition says
  so in its doc comment.
-/

namespace Opgp

/-- Public-key algorithm identifiers; key.js compares `keyPacket.algorithm` against the
algorithm name strings obtained through `enums.read(enums.publicKey, ...)`. -/
inductive PubKeyAlgo where
  | rsa_encrypt_sign
  | rsa_encrypt
  | rsa_sign
  | elgamal
  | dsa
  | ecdh
  | ecdsa
  | eddsa
  deriving DecidableEq, Repr

/-- Signature-type tags of signature packets, as dispatched on by
`Key.prototype.packetlist2structure`.  `other_sig` stands for any signature type the
switch does not handle (such packets are ignored). -/
inductive SigType where
  | cert_generic
  | cert_persona
  | cert_casual
  | cert_positive
  | cert_revocation
  | key_sig
  | subkey_binding
  | key_revocation
  | subkey_revocation
  | other_sig
  deriving DecidableEq, Repr

/-- Modelled from the spec: the key-status enum of enums.js (enums.js is not under src/).
Its numeric values are invalid=0, expired=1, revoked=2, valid=3, no_self_cert=4; only
`invalid` is falsy when a status is used in a boolean position. -/
inductive KeyStatus where
  | invalid
  | expired
  | revoked
  | valid
  | no_self_cert
  deriving DecidableEq, Repr

/-- JavaScript truthiness of a key-status value: `enums.keyStatus.invalid` is the number
0 and is the only falsy member. -/
def KeyStatus.truthy : KeyStatus → Bool
  | .invalid => false
  | _ => true

/-- Named curves of the registry in src/crypto/public_key/elliptic/curves.js. -/
inductive CurveName where
  | p256
  | p384
  | p521
  | secp256k1
  | ed25519
  | curve25519
  | brainpoolP256r1
  | brainpoolP384r1
  | brainpoolP512r1
  deriving DecidableEq, Repr

/-- Signature packet, restricted to the fields key.js reads.  `rawSig` abstracts the raw
signature byte string (`signature.signature`) by an identifier: two signatures carry the
same bytes exactly when their `rawSig` agree. -/
structure Signature where
  issuerKeyId : Nat
  created : Int
  signatureType : SigType := .other_sig
  rawSig : Nat := 0
  verified : Bool := false
  revoked : Option Bool := none
  verifyResult : Bool := false
  isExpiredF : Int → Bool := fun _ => false
  keyFlags : Option (List Nat) := none
  keyExpirationTime : Option Int := none
  keyNeverExpires : Option Bool := none
  isPrimaryUserID : Option Nat := none
  preferredHashAlgorithms : Option (List Nat) := none
  preferredSymmetricAlgorithms : Option (List Nat) := none

/-- Key packet (public or secret, primary or subkey), restricted to the fields key.js
reads.  `curveOid` models `key.params[0]` for the ECC algorithms. -/
structure KeyPacket where
  keyId : Nat
  fingerprint : Nat
  algorithm : PubKeyAlgo := .rsa_encrypt_sign
  version : Nat := 4
  created : Int := 0
  expirationTimeV3 : Int := 0
  curveOid : CurveName := .p256
  deriving DecidableEq, Repr

/-- Packets as consumed by `packetlist2structure`: key packets (primary or subkey,
public or secret), user packets (UserID or UserAttribute, content abstracted by an
identifier), and signature packets. -/
inductive Packet where
  | key (isSub : Bool) (isSecret : Bool) (kp : KeyPacket)
  | user (isAttr : Bool) (uid : Nat)
  | sig (s : Signature)

/-- User: a UserID or UserAttribute packet with its three signature containers. -/
structure User where
  isAttr : Bool := false
  uid : Nat
  selfCertifications : List Signature := []
  otherCertifications : List Signature := []
  revocationSignatures : List Signature := []

/-- SubKey: one subkey packet with binding and revocation signatures. -/
structure SubKey where
  isSecret : Bool := false
  subKey : KeyPacket
  bindingSignatures : List Signature := []
  revocationSignatures : List Signature := []

/-- Key: primary key packet, key-revocation and direct signatures, users, subkeys. -/
structure Key where
  primaryIsSecret : Bool := false
  primaryKey : KeyPacket
  revocationSignatures : List Signature := []
  directSignatures : List Signature := []
  users : List User := []
  subKeys : List SubKey := []

/-- JavaScript truthiness of an `Option Bool` field (`undefined`, `null` and `false`
are falsy). -/
def truthyOB : Option Bool → Bool
  | some true => true
  | _ => false

/-- JavaScript truthiness of an `Option Nat` field (`undefined`, `null` and 0 are
falsy). -/
def truthyON : Option Nat → Bool
  | some (_ + 1) => true
  | _ => false

/-- Configuration defaults of src/config/config.js that key.js reads. -/
def config_revocations_expire : Bool := false

/-- Configuration default `prefer_hash_algorithm` (enums.hash.sha256 = 8). -/
def config_prefer_hash_algorithm : Nat := 8

/-- Configuration default `encryption_cipher` (enums.symmetric.aes256 = 9). -/
def config_encryption_cipher : Nat := 9

/-- Modelled from the spec: util.normalizeDate (util.js is not under src/) floors a time
to whole seconds; the null input case does not arise for integer times. -/
def normalizeDate (t : Int) : Int := (Int.fdiv t 1000) * 1000

/-- The cached verified flag, or the verification oracle where the source writes
`signature.verified || await signature.verify(...)`. -/
def sigVerifies (s : Signature) : Bool := s.verified || s.verifyResult

/-- Raw-byte equality of two signatures (`util.equalsUint8Array` on
`signature.signature`). -/
def equalsBytes (a b : Signature) : Bool := a.rawSig == b.rawSig

/-- The observable identity of a signature: issuer key-ID, created time, raw bytes. -/
def sigKey (s : Signature) : Nat × Int × Nat := (s.issuerKeyId, s.created, s.rawSig)

/-- getExpirationTime of key.js.  `none` stands for the `Infinity` result.  The v4
branch reads `signature.keyNeverExpires === false` and then adds
`signature.keyExpirationTime` seconds to the signature's created time; an absent
`keyExpirationTime` makes the sum NaN, which is falsy and hence also yields Infinity,
as does a computed expiration of exactly 0 (`expirationTime ? ... : Infinity`).
The v4 branch with an absent signature would throw in the source; all call sites guard
that case, and it is unreached here. -/
def getExpirationTime (kp : KeyPacket) (signature : Option Signature) : Option Int :=
  let e : Option Int :=
    if kp.version == 3 && kp.expirationTimeV3 != 0 then
      some (kp.created + kp.expirationTimeV3 * 24 * 3600 * 1000)
    else none
  let e : Option Int :=
    if kp.version == 4 then
      match signature with
      | some s =>
        if s.keyNeverExpires == some false then
          match s.keyExpirationTime with
          | some ket => some (s.created + ket * 1000)
          | none => e
        else e
      | none => e
    else e
  match e with
  | some v => if v == 0 then none else some v
  | none => none

/-- isDataExpired of key.js: not (created <= normDate < expirationTime), or the
governing signature is itself expired at the (unnormalized) date. -/
def isDataExpired (kp : KeyPacket) (signature : Option Signature) (date : Int) : Bool :=
  let normDate := normalizeDate date
  let expirationTime := getExpirationTime kp signature
  let inRange := kp.created ≤ normDate &&
    (match expirationTime with
     | none => true
     | some e => normDate < e)
  !inRange ||
    (match signature with
     | some s => s.isExpiredF date
     | none => false)

/-- Result of isDataRevoked: the boolean outcome, the revocation signatures with their
verified caches updated, and the updated target signature when one was given. -/
structure RevUpd where
  result : Bool
  revocations : List Signature
  target : Option Signature

/-- isDataRevoked of key.js.  Each candidate revocation that is not (config-gated)
expired and verifies contributes its issuer key-ID; with a target signature the target's
`revoked` flag is set to true on an issuer match and otherwise left as it was, and the
(truthiness of the) flag is returned; without a target the outcome is whether any
revocation verified. -/
def isDataRevoked (revocations : List Signature) (target : Option Signature)
    (date : Int) : RevUpd :=
  let normDate := normalizeDate date
  let step := revocations.map (fun r =>
    if !(config_revocations_expire && r.isExpiredF normDate) && (r.verified || r.verifyResult)
    then ((some r.issuerKeyId : Option Nat), { r with verified := true })
    else (none, r))
  let revocationKeyIds := step.filterMap Prod.fst
  let revocations := step.map Prod.snd
  match target with
  | some s =>
    let s := { s with
      revoked := if revocationKeyIds.any (fun kid => kid == s.issuerKeyId)
                 then some true else s.revoked }
    { result := truthyOB s.revoked, revocations := revocations, target := some s }
  | none =>
    { result := !revocationKeyIds.isEmpty, revocations := revocations, target := none }

/-- JavaScript `a < b` where `a` is a number and `b` is the running
`lastPrimaryUserID` value: against `null` the comparison is `a < 0` (false for the
natural-number weights used here) and against `undefined` it is false (NaN); both cases
collapse to `false` for the `none` branch. -/
def jsLtN (a : Nat) (b : Option Nat) : Bool :=
  match b with
  | some v => a < v
  | none => false

/-- JavaScript `a < b` where `a` is a Date and `b` is the running `lastCreated` value:
against the initial `null` the comparison coerces to `a < 0`. -/
def jsLtD (a : Int) (b : Option Int) : Bool :=
  match b with
  | some v => decide (a < v)
  | none => decide (a < 0)

/-- Primary-user candidate: the index of the user, the user, and their self
certification, exactly the record getPrimaryUser returns. -/
structure PrimUser where
  index : Nat
  user : User
  selfCertification : Signature

/-- Revocation test `cert.revoked || await user.isRevoked(primaryKey, cert, null, date)`
for a self certification, against the user's revocation signatures.  The monotone cache
writes this performs on the certification and the revocation signatures are not
observed by any later read in this pass and are not threaded. -/
def userIsRevokedResult (now : Int) (u : User) (cert : Signature) : Bool :=
  (isDataRevoked u.revocationSignatures (some cert) now).result

/-- One self-certification step of the candidate loop in getPrimaryUser: skip the
certification when the heuristic says it is not the most recent, when it fails to
verify, is revoked, or is expired; otherwise record it and update `lastCreated` and
`lastPrimaryUserID`. -/
def certStep (now : Int) (u : User) (i : Nat)
    (st : Option Int × Option Nat × List PrimUser) (cert : Signature) :
    Option Int × Option Nat × List PrimUser :=
  let (lastCreated, lastPUID, acc) := st
  if (truthyON cert.isPrimaryUserID && jsLtN (cert.isPrimaryUserID.getD 0) lastPUID) ||
     (!truthyON lastPUID && jsLtD cert.created lastCreated) then st
  else if !(cert.verified || cert.verifyResult) then st
  else if truthyOB cert.revoked || userIsRevokedResult now u cert then st
  else if cert.isExpiredF now then st
  else (some cert.created, cert.isPrimaryUserID, acc ++ [⟨i, u, cert⟩])

/-- Candidate collection of getPrimaryUser.  The source iterates users with a plain
`for` loop and executes `return;` on a user without a UserID packet, aborting the whole
selection (result `none`), rather than skipping that user. -/
def collectPrimaryCands (now : Int) :
    List User → Nat → Option Int → Option Nat → List PrimUser → Option (List PrimUser)
  | [], _, _, _, acc => some acc
  | u :: us, i, lastCreated, lastPUID, acc =>
    if u.isAttr then none
    else
      let (lc, lp, acc2) := u.selfCertifications.foldl (certStep now u i)
        (lastCreated, lastPUID, acc)
      collectPrimaryCands now us (i + 1) lc lp acc2

/-- The sort comparator of getPrimaryUser:
`(B.isPrimaryUserID - A.isPrimaryUserID) || (B.created - A.created)`.  When either
`isPrimaryUserID` is undefined the subtraction is NaN, which is falsy, so the `||`
falls through to the created-time difference; a zero difference likewise falls
through. -/
def cmpCand (a b : PrimUser) : Int :=
  let d : Option Int :=
    match b.selfCertification.isPrimaryUserID, a.selfCertification.isPrimaryUserID with
    | some bw, some aw => some ((bw : Int) - (aw : Int))
    | _, _ => none
  match d with
  | some v =>
    if v == 0 then b.selfCertification.created - a.selfCertification.created else v
  | none => b.selfCertification.created - a.selfCertification.created

/-- Stable insertion with respect to the comparator: the new element is placed before
the first element it compares below, after any it ties with — the standard stable
comparison sort behaviour. -/
def insertSorted (x : PrimUser) : List PrimUser → List PrimUser
  | [] => [x]
  | y :: ys => if cmpCand x y < 0 then x :: y :: ys else y :: insertSorted x ys

/-- Stable sort with the getPrimaryUser comparator. -/
def sortCands (l : List PrimUser) : List PrimUser :=
  l.foldl (fun acc x => insertSorted x acc) []

/-- getPrimaryUser of key.js: collect candidates (aborting on a user with no UserID),
sort them descending by `(isPrimaryUserID, created)` with the comparator above, and
`pop()` the last element of the sorted array. -/
def Key.getPrimaryUser (now : Int) (k : Key) : Option PrimUser :=
  match collectPrimaryCands now k.users 0 none none [] with
  | none => none
  | some cands => (sortCands cands).getLast?

/-- verifyPrimaryKey of key.js. -/
def Key.verifyPrimaryKey (now : Int) (k : Key) : KeyStatus :=
  if (isDataRevoked k.revocationSignatures none now).result then .revoked
  else if !(k.users.any (fun u => !u.isAttr && !u.selfCertifications.isEmpty)) then
    .no_self_cert
  else
    match k.getPrimaryUser now with
    | none => .invalid
    | some pu =>
      if (k.primaryKey.version == 3 && isDataExpired k.primaryKey none now) ||
         (k.primaryKey.version == 4 &&
           isDataExpired k.primaryKey (some pu.selfCertification) now) then .expired
      else .valid

/-- One binding signature of SubKey.verify: verify (updating the cache), then the
revocation test against the subkey's revocation signatures (updating the binding's
revoked flag and the revocations' caches), then the signature's own expiration. -/
def bindingStatusStep (now : Int) (revs : List Signature) (b : Signature) :
    KeyStatus × Signature × List Signature :=
  if !(b.verified || b.verifyResult) then (.invalid, b, revs)
  else
    let b := { b with verified := true }
    if truthyOB b.revoked then (.revoked, b, revs)
    else
      let r := isDataRevoked revs (some b) now
      let b := r.target.getD b
      if r.result then (.revoked, b, r.revocations)
      else if b.isExpiredF now then (.expired, b, r.revocations)
      else (.valid, b, r.revocations)

/-- SubKey.verify of key.js: v3 key-level expiration first, then every binding
signature is checked; the status is valid if any binding is valid, otherwise the status
of the last binding examined, defaulting to invalid.  Returns the status together with
the subkey carrying the updated signature caches. -/
def SubKey.verifyS (now : Int) (sk : SubKey) : KeyStatus × SubKey :=
  if sk.subKey.version == 3 && isDataExpired sk.subKey none now then (.expired, sk)
  else
    let out := sk.bindingSignatures.foldl
      (fun (acc : List KeyStatus × List Signature × List Signature) b =>
        let (st, b2, revs2) := bindingStatusStep now acc.2.2 b
        (acc.1 ++ [st], acc.2.1 ++ [b2], revs2))
      ([], [], sk.revocationSignatures)
    let results := KeyStatus.invalid :: out.1
    let status := if results.any (· == .valid) then KeyStatus.valid
                  else (results.getLast?).getD .invalid
    (status, { sk with bindingSignatures := out.2.1, revocationSignatures := out.2.2 })

/-- Key-flag bit constants.  Modelled from the spec (enums.js is not under src/): the
RFC 4880 key-flag octet values certify_keys=0x01, sign_data=0x02,
encrypt_communication=0x04, encrypt_storage=0x08. -/
def keyFlag_sign_data : Nat := 2

/-- Key-flag bit for encrypt-communication (see `keyFlag_sign_data`). -/
def keyFlag_encrypt_communication : Nat := 4

/-- Key-flag bit for encrypt-storage (see `keyFlag_sign_data`). -/
def keyFlag_encrypt_storage : Nat := 8

/-- isValidSigningKeyPacket of key.js.  An absent keyFlags array passes; an empty array
is truthy in JavaScript, and indexing it yields undefined whose bitwise-and is 0. -/
def isValidSigningKeyPacket (kp : KeyPacket) (s : Signature) (now : Int) : Bool :=
  kp.algorithm != .rsa_encrypt && kp.algorithm != .elgamal && kp.algorithm != .ecdh &&
  (s.keyFlags.isNone || ((s.keyFlags.getD []).headD 0 &&& keyFlag_sign_data) != 0) &&
  s.verified && !truthyOB s.revoked && !s.isExpiredF now &&
  !isDataExpired kp (some s) now

/-- isValidEncryptionKeyPacket of key.js. -/
def isValidEncryptionKeyPacket (kp : KeyPacket) (s : Signature) (now : Int) : Bool :=
  kp.algorithm != .dsa && kp.algorithm != .rsa_sign && kp.algorithm != .ecdsa &&
  kp.algorithm != .eddsa &&
  (s.keyFlags.isNone ||
    ((s.keyFlags.getD []).headD 0 &&& keyFlag_encrypt_communication) != 0 ||
    ((s.keyFlags.getD []).headD 0 &&& keyFlag_encrypt_storage) != 0) &&
  s.verified && !truthyOB s.revoked && !s.isExpiredF now &&
  !isDataExpired kp (some s) now

/-- The key-ID filter of the subkey loops (`!keyId || subKey.getKeyId().equals(keyId)`). -/
def subKeyMatches (keyId : Option Nat) (sk : SubKey) : Bool :=
  keyId.isNone || sk.subKey.keyId == keyId.getD 0

/-- Subkey loop of getSigningKeyPacket: for each subkey passing the key-ID filter, run
SubKey.verify to populate the caches, then return the subkey packet on the first
binding signature passing isValidSigningKeyPacket. -/
def findSigningSubkey (now : Int) (keyId : Option Nat) : List SubKey → Option KeyPacket
  | [] => none
  | sk :: sks =>
    if subKeyMatches keyId sk then
      let sk2 := (SubKey.verifyS now sk).2
      match sk2.bindingSignatures.find? (fun b => isValidSigningKeyPacket sk2.subKey b now) with
      | some _ => some sk2.subKey
      | none => findSigningSubkey now keyId sks
    else findSigningSubkey now keyId sks

/-- The primary-key eligibility test of getSigningKeyPacket: a primary user exists,
the key-ID hint matches, the primary passes isValidSigningKeyPacket under the primary
user's self certification, and verifyPrimaryKey is truthy — note any status other than
`invalid` is truthy, since `enums.keyStatus.invalid` is 0. -/
def signingPrimaryOk (k : Key) (keyId : Option Nat) (now : Int) : Bool :=
  match k.getPrimaryUser now with
  | some pu =>
    (keyId.isNone || k.primaryKey.keyId == keyId.getD 0) &&
    isValidSigningKeyPacket k.primaryKey pu.selfCertification now &&
    (k.verifyPrimaryKey now).truthy
  | none => false

/-- getSigningKeyPacket of key.js: primary key first, then the subkeys in order. -/
def Key.getSigningKeyPacket (k : Key) (keyId : Option Nat) (now : Int) :
    Option KeyPacket :=
  if signingPrimaryOk k keyId now then some k.primaryKey
  else findSigningSubkey now keyId k.subKeys

/-- Subkey loop of getEncryptionKeyPacket. -/
def findEncryptionSubkey (now : Int) (keyId : Option Nat) :
    List SubKey → Option KeyPacket
  | [] => none
  | sk :: sks =>
    if subKeyMatches keyId sk then
      let sk2 := (SubKey.verifyS now sk).2
      match sk2.bindingSignatures.find?
          (fun b => isValidEncryptionKeyPacket sk2.subKey b now) with
      | some _ => some sk2.subKey
      | none => findEncryptionSubkey now keyId sks
    else findEncryptionSubkey now keyId sks

/-- The primary-key eligibility test of getEncryptionKeyPacket (see
`signingPrimaryOk`). -/
def encryptionPrimaryOk (k : Key) (keyId : Option Nat) (now : Int) : Bool :=
  match k.getPrimaryUser now with
  | some pu =>
    (keyId.isNone || k.primaryKey.keyId == keyId.getD 0) &&
    isValidEncryptionKeyPacket k.primaryKey pu.selfCertification now &&
    (k.verifyPrimaryKey now).truthy
  | none => false

/-- getEncryptionKeyPacket of key.js: subkeys first (by convention preferred for
encryption), then the primary key under the same kind of eligibility filter. -/
def Key.getEncryptionKeyPacket (k : Key) (keyId : Option Nat) (now : Int) :
    Option KeyPacket :=
  match findEncryptionSubkey now keyId k.subKeys with
  | some kp => some kp
  | none => if encryptionPrimaryOk k keyId now then some k.primaryKey else none

/-- Accumulator of packetlist2structure: the structured fields plus the three cursors.
`userSet` (resp. `subKeySet`) records whether the `user` (resp. `subKey`) variable of
the source is non-null, in which case it refers to the last element of `users` (resp.
`subKeys`).  The source sets `user = null` on a subkey packet but never clears
`subKey`. -/
structure BuildState where
  primary : Option (Bool × KeyPacket) := none
  primaryKeyId : Option Nat := none
  revocationSignatures : List Signature := []
  directSignatures : List Signature := []
  users : List User := []
  subKeys : List SubKey := []
  userSet : Bool := false
  subKeySet : Bool := false

/-- Apply a function to the last element of a list (the packet cursors of the builder
point at the most recently pushed user or subkey). -/
def modifyLast (f : α → α) : List α → List α
  | [] => []
  | [x] => [f x]
  | x :: y :: xs => x :: modifyLast f (y :: xs)

/-- Certification classification of the builder: self when the issuer key-ID equals the
primary key's ID (`none` — no key packet seen yet — never matches; the source would
fault on `equals(undefined)` there, a case excluded by well-formedness). -/
def pushSelfOrOther (pid : Option Nat) (s : Signature) (u : User) : User :=
  if pid == some s.issuerKeyId then
    { u with selfCertifications := u.selfCertifications ++ [s] }
  else
    { u with otherCertifications := u.otherCertifications ++ [s] }

/-- One packet of packetlist2structure. -/
def buildStep (st : BuildState) (p : Packet) : BuildState :=
  match p with
  | .key false sec kp =>
    { st with primary := some (sec, kp), primaryKeyId := some kp.keyId }
  | .user a uid =>
    { st with users := st.users ++ [{ isAttr := a, uid := uid }], userSet := true }
  | .key true sec kp =>
    { st with subKeys := st.subKeys ++ [{ isSecret := sec, subKey := kp }],
              userSet := false, subKeySet := true }
  | .sig s =>
    match s.signatureType with
    | .cert_generic | .cert_persona | .cert_casual | .cert_positive =>
      if !st.userSet then st
      else { st with users := modifyLast (pushSelfOrOther st.primaryKeyId s) st.users }
    | .cert_revocation =>
      if st.userSet then
        let f := fun u : User =>
          { u with revocationSignatures := u.revocationSignatures ++ [s] }
        { st with users := modifyLast f st.users }
      else { st with directSignatures := st.directSignatures ++ [s] }
    | .key_sig => { st with directSignatures := st.directSignatures ++ [s] }
    | .subkey_binding =>
      if !st.subKeySet then st
      else
        let f := fun sk : SubKey =>
          { sk with bindingSignatures := sk.bindingSignatures ++ [s] }
        { st with subKeys := modifyLast f st.subKeys }
    | .key_revocation =>
      { st with revocationSignatures := st.revocationSignatures ++ [s] }
    | .subkey_revocation =>
      if !st.subKeySet then st
      else
        let f := fun sk : SubKey =>
          { sk with revocationSignatures := sk.revocationSignatures ++ [s] }
        { st with subKeys := modifyLast f st.subKeys }
    | .other_sig => st

/-- The Key constructor: packetlist2structure followed by the non-empty validation
(`Invalid key: need at least key and user ID packet`). -/
def buildKey (ps : List Packet) : Except String Key :=
  let st := ps.foldl buildStep {}
  match st.primary with
  | some (sec, kp) =>
    if st.users.isEmpty then .error "Invalid key: need at least key and user ID packet"
    else .ok { primaryIsSecret := sec, primaryKey := kp,
               revocationSignatures := st.revocationSignatures,
               directSignatures := st.directSignatures,
               users := st.users, subKeys := st.subKeys }
  | none => .error "Invalid key: need at least key and user ID packet"

/-- User.prototype.toPacketlist: the user packet, then revocations, self
certifications, other certifications. -/
def User.toPacketlist (u : User) : List Packet :=
  Packet.user u.isAttr u.uid ::
    (u.revocationSignatures ++ u.selfCertifications ++ u.otherCertifications).map .sig

/-- SubKey.prototype.toPacketlist: the subkey packet, then revocations, then binding
signatures. -/
def SubKey.toPacketlist (sk : SubKey) : List Packet :=
  Packet.key true sk.isSecret sk.subKey ::
    (sk.revocationSignatures ++ sk.bindingSignatures).map .sig

/-- Key.prototype.toPacketlist: primary key packet, key revocations, direct signatures,
user blocks, subkey blocks. -/
def Key.toPacketlist (k : Key) : List Packet :=
  Packet.key false k.primaryIsSecret k.primaryKey ::
    ((k.revocationSignatures ++ k.directSignatures).map .sig ++
      (k.users.map User.toPacketlist).flatten ++
      (k.subKeys.map SubKey.toPacketlist).flatten)

/-- Certification signature types (the four cert_* cases of the builder switch). -/
def isCertType : SigType → Bool
  | .cert_generic | .cert_persona | .cert_casual | .cert_positive => true
  | _ => false

/-- Bucket constraints on a user making its serialized block re-parse into itself:
revocations are cert_revocation packets, self certifications are cert_* packets issued
by the primary key, other certifications are cert_* packets by other issuers. -/
def goodUser (pid : Nat) (u : User) : Bool :=
  u.revocationSignatures.all (fun s => s.signatureType == .cert_revocation) &&
  u.selfCertifications.all
    (fun s => isCertType s.signatureType && s.issuerKeyId == pid) &&
  u.otherCertifications.all
    (fun s => isCertType s.signatureType && s.issuerKeyId != pid)

/-- Bucket constraints on a subkey (see `goodUser`). -/
def goodSubKey (sk : SubKey) : Bool :=
  sk.revocationSignatures.all (fun s => s.signatureType == .subkey_revocation) &&
  sk.bindingSignatures.all (fun s => s.signatureType == .subkey_binding)

/-- Structural constraints making a Key's serialization well-formed: at least one user,
key-revocation signatures in the revocation bucket, key signatures or standalone
certification revocations in the direct bucket, and the per-user / per-subkey bucket
constraints. -/
def goodKey (k : Key) : Bool :=
  !k.users.isEmpty &&
  k.revocationSignatures.all (fun s => s.signatureType == .key_revocation) &&
  k.directSignatures.all
    (fun s => s.signatureType == .key_sig || s.signatureType == .cert_revocation) &&
  k.users.all (goodUser k.primaryKey.keyId) &&
  k.subKeys.all goodSubKey

/-- Well-formed packet sequences in the sense of spec section 4.1: one primary key
packet followed by key revocations, direct signatures, user blocks and subkey blocks in
the canonical order — exactly the serializations of structurally good keys. -/
def WellFormed (p : List Packet) : Prop :=
  ∃ k : Key, goodKey k = true ∧ p = k.toPacketlist

/-- mergeSignatures of key.js, with the attribute access specialised to an explicit
check function that may also rewrite the destination list (the subkey binding check
mutates it while scanning).  When the destination list is empty the entire source list
is adopted without any checks; otherwise each source signature is added when it is not
expired, the check passes, and no destination signature has equal raw bytes (the checks
run in exactly this order, so an expired signature never reaches the check function).
The pushed signature is stored as-is: the verified-cache write its verification
performs is monotone and not observed by the claims. -/
def mergeSignatures (now : Int) (src dst : List Signature)
    (check : Signature → List Signature → Bool × List Signature) : List Signature :=
  if dst.isEmpty then src
  else
    src.foldl (fun acc s =>
      if s.isExpiredF now then acc
      else
        let r := check s acc
        if r.1 && !(r.2.any (fun d => equalsBytes d s)) then r.2 ++ [s] else r.2) dst

/-- A check function that checks nothing and leaves the destination unchanged (the
calls of mergeSignatures without a checkFn). -/
def noCheck (_ : Signature) (l : List Signature) : Bool × List Signature := (true, l)

/-- The revocation-signature check of the merge calls:
`isDataRevoked(primaryKey, dataToVerify, [srcRevSig])` with no target, which reduces to
whether the single candidate verifies. -/
def revocationMergeCheck (now : Int) (s : Signature) (l : List Signature) :
    Bool × List Signature :=
  ((isDataRevoked [s] none now).result, l)

/-- The destination scan of the binding-signature check in SubKey.update: on the first
destination binding with the same issuer created strictly later than the source, the
source replaces it in place and the check fails (no append); otherwise the scan
continues, and a source matching no such binding is appended. -/
def bindingMergeLoop (s : Signature) : List Signature → Bool × List Signature
  | [] => (true, [])
  | d :: ds =>
    if d.issuerKeyId == s.issuerKeyId && s.created < d.created then (false, s :: ds)
    else
      let r := bindingMergeLoop s ds
      (r.1, d :: r.2)

/-- The binding-signature check function of SubKey.update: the source binding must
verify, then the per-issuer scan above runs. -/
def bindingMergeCheck (s : Signature) (dst : List Signature) : Bool × List Signature :=
  if !(s.verified || s.verifyResult) then (false, dst)
  else bindingMergeLoop s dst

/-- SubKey.prototype.update: ignore a source subkey whose verification is invalid,
fail on a fingerprint mismatch, adopt a secret source packet over a public destination
packet, then merge binding signatures (with the per-issuer check) and revocation
signatures.  The source's signature caches are the ones SubKey.verify just updated. -/
def SubKey.updateS (now : Int) (dst src : SubKey) : Except String SubKey :=
  let v := SubKey.verifyS now src
  if v.1 == .invalid then .ok dst
  else if dst.subKey.fingerprint != src.subKey.fingerprint then
    .error "SubKey update method: fingerprints of subkeys not equal"
  else
    let src2 := v.2
    let dst :=
      if !dst.isSecret && src2.isSecret then
        { dst with isSecret := true, subKey := src2.subKey }
      else dst
    let binds := mergeSignatures now src2.bindingSignatures dst.bindingSignatures
      bindingMergeCheck
    let revs := mergeSignatures now src2.revocationSignatures dst.revocationSignatures
      (revocationMergeCheck now)
    .ok { dst with bindingSignatures := binds, revocationSignatures := revs }

/-- User.prototype.update: merge self certifications (source must verify), other
certifications (unconditionally), revocation signatures (source must verify as a
revocation). -/
def User.updateS (now : Int) (dst src : User) : User :=
  let selfs := mergeSignatures now src.selfCertifications dst.selfCertifications
    (fun s l => (s.verified || s.verifyResult, l))
  let others := mergeSignatures now src.otherCertifications dst.otherCertifications
    noCheck
  let revs := mergeSignatures now src.revocationSignatures dst.revocationSignatures
    (revocationMergeCheck now)
  { dst with selfCertifications := selfs, otherCertifications := others,
             revocationSignatures := revs }

/-- User matching of Key.update: same UserID content, or same UserAttribute content.
(The source reads `dstUser.userId.userid` without a null check and would fault on a
destination attribute user met by a source UserID user; the claims do not reach that
case and it is modelled as a non-match.) -/
def userMatches (src dst : User) : Bool :=
  (!src.isAttr && !dst.isAttr && src.uid == dst.uid) ||
  (src.isAttr && dst.isAttr && src.uid == dst.uid)

/-- The public-destination/private-source step of Key.update: require the subkey sets
to agree by fingerprint, then adopt the source's primary key packet. -/
def adoptPrivate (dst src : Key) : Except String Key :=
  if !dst.primaryIsSecret && src.primaryIsSecret then
    if !(dst.subKeys.length == src.subKeys.length &&
        dst.subKeys.all (fun dsk => src.subKeys.any
          (fun ssk => dsk.subKey.fingerprint == ssk.subKey.fingerprint))) then
      .error "Cannot update public key with private key if subkey mismatch"
    else .ok { dst with primaryIsSecret := true, primaryKey := src.primaryKey }
  else .ok dst

/-- The user merge of Key.update: every matching destination user is updated from the
source user; a source user with no match is appended. -/
def mergeUsers (now : Int) (dstUsers srcUsers : List User) : List User :=
  srcUsers.foldl (fun acc su =>
    let found := acc.any (userMatches su)
    let acc := acc.map (fun du => if userMatches su du then User.updateS now du su else du)
    if found then acc else acc ++ [su]) dstUsers

/-- The subkey merge of Key.update: matching subkeys (by fingerprint) are updated, a
source subkey with no match is appended; a SubKey.update failure propagates. -/
def mergeSubKeys (now : Int) (dstSubKeys srcSubKeys : List SubKey) :
    Except String (List SubKey) :=
  srcSubKeys.foldlM (fun acc ssk => do
    let found := acc.any (fun dsk => dsk.subKey.fingerprint == ssk.subKey.fingerprint)
    let acc ← acc.mapM (fun dsk =>
      if dsk.subKey.fingerprint == ssk.subKey.fingerprint then SubKey.updateS now dsk ssk
      else .ok dsk)
    pure (if found then acc else acc ++ [ssk])) dstSubKeys

/-- Key.prototype.update: silently ignore a source whose primary-key verification is
invalid; fail on a fingerprint mismatch; possibly adopt the private primary; merge
key-revocation signatures (source must verify as a revocation), direct signatures
(unconditionally), users and subkeys. -/
def Key.updateS (now : Int) (dst src : Key) : Except String Key :=
  if Key.verifyPrimaryKey now src == .invalid then .ok dst
  else if dst.primaryKey.fingerprint != src.primaryKey.fingerprint then
    .error "Key update method: fingerprints of keys not equal"
  else
    match adoptPrivate dst src with
    | .error e => .error e
    | .ok dst2 =>
      let revs := mergeSignatures now src.revocationSignatures dst2.revocationSignatures
        (revocationMergeCheck now)
      let dirs := mergeSignatures now src.directSignatures dst2.directSignatures noCheck
      let users := mergeUsers now dst2.users src.users
      match mergeSubKeys now dst2.subKeys src.subKeys with
      | .error e => .error e
      | .ok sks =>
        .ok { dst2 with revocationSignatures := revs, directSignatures := dirs,
                        users := users, subKeys := sks }

/-- Modelled from the spec: crypto.hash.getHashByteLength (crypto/hash is not under
src/) — the digest byte lengths of the enums.hash ids md5=1, sha1=2, ripemd=3, sha256=8,
sha384=9, sha512=10, sha224=11.  An unknown id makes the source throw; modelled as 0,
unreached in the claims. -/
def getHashByteLength : Nat → Nat
  | 1 => 16
  | 2 => 20
  | 3 => 20
  | 8 => 32
  | 9 => 48
  | 10 => 64
  | 11 => 28
  | _ => 0

/-- The per-curve preferred hash of the registry in curves.js (the brainpool entries
carry no hash field; the source would yield undefined there — modelled as 0, unreached
in the claims). -/
def curvePreferredHash : CurveName → Nat
  | .p256 => 8
  | .p384 => 9
  | .p521 => 10
  | .secp256k1 => 8
  | .ed25519 => 10
  | .curve25519 => 8
  | _ => 0

/-- The argument of getPreferredHashAlgo: a full Key or a bare key packet. -/
inductive HashTarget where
  | keyT (k : Key)
  | packetT (kp : KeyPacket)

/-- getPreferredHashAlgo of key.js.  For a full Key the primary user's first preferred
hash is taken when its digest is at least as long as the configured default; the source
then executes `key = key.getSigningKeyPacket(undefined, null);` WITHOUT awaiting the
async call, so the subsequent `Object.getPrototypeOf(key)` sees Promise.prototype,
matches none of the four packet prototypes, and the ECC-curve branch is skipped for
every Key input.  Only a bare packet argument reaches the curve branch.  (An empty
preferred-hash array would destructure to undefined in the source and then throw in
getHashByteLength; modelled via headD 0, unreached in the claims.) -/
def getPreferredHashAlgo (now : Int) (t : HashTarget) : Nat :=
  let hash_algo := config_prefer_hash_algorithm
  let pref_algo := hash_algo
  match t with
  | .keyT k =>
    let hp : Nat × Nat :=
      match k.getPrimaryUser now with
      | some pu =>
        match pu.selfCertification.preferredHashAlgorithms with
        | some prefs =>
          let p := prefs.headD 0
          (if getHashByteLength hash_algo ≤ getHashByteLength p then p else hash_algo, p)
        | none => (hash_algo, pref_algo)
      | none => (hash_algo, pref_algo)
    if getHashByteLength hp.1 ≤ getHashByteLength hp.2 then hp.2 else hp.1
  | .packetT kp =>
    let pref_algo :=
      match kp.algorithm with
      | .ecdh | .ecdsa | .eddsa => curvePreferredHash kp.curveOid
      | _ => pref_algo
    if getHashByteLength hash_algo ≤ getHashByteLength pref_algo then pref_algo
    else hash_algo

/-- Modelled from the spec: the known symmetric algorithm ids of enums.js (not under
src/): plaintext=0, idea=1, tripledes=2, cast5=3, blowfish=4, aes128=7, aes192=8,
aes256=9, twofish=10; `enums.read` succeeds exactly on these. -/
def knownSymAlgo (a : Nat) : Bool :=
  [0, 1, 2, 3, 4, 7, 8, 9, 10].contains a

/-- Entry of the priority map of getPreferredSymAlgo. -/
structure SymEntry where
  algo : Nat
  prio : Nat
  count : Nat

/-- Score one preferred algorithm at the given list index (64 >> index). -/
def bumpEntry (idx : Nat) (a : Nat) : List SymEntry → List SymEntry
  | [] => [⟨a, 64 >>> idx, 1⟩]
  | e :: es =>
    if e.algo == a then
      { e with prio := e.prio + (64 >>> idx), count := e.count + 1 } :: es
    else e :: bumpEntry idx a es

/-- Accumulate one key's preferred-symmetric list into the priority map. -/
def addPrefs (m : List SymEntry) (prefs : List Nat) : List SymEntry :=
  prefs.enum.foldl (fun m p => bumpEntry p.1 p.2 m) m

/-- Ascending insertion sort on naturals: JavaScript `for...in` enumerates the
integer-like keys of an object in ascending numeric order. -/
def insNat (x : Nat) : List Nat → List Nat
  | [] => [x]
  | y :: ys => if x < y then x :: y :: ys else y :: insNat x ys

/-- Sort a list of naturals ascending (see `insNat`). -/
def sortNats (l : List Nat) : List Nat := l.foldl (fun acc x => insNat x acc) []

/-- getPreferredSymAlgo of key.js.  Keys without a primary user or without a
preferred-symmetric list contribute nothing (the `return config.encryption_cipher`
inside the map callback only skips that key).  The final loop iterates the map's keys;
note that a `for...in` key is a STRING while `enums.symmetric.plaintext` and
`enums.symmetric.idea` are numbers, so the strict inequations `algo !== ...` are always
true and the plaintext/idea exclusions never fire — they are rendered as the constants
below with the source's comments. -/
def getPreferredSymAlgo (now : Int) (keys : List Key) : Nat :=
  let prioMap := keys.foldl (fun m k =>
    match k.getPrimaryUser now with
    | some pu =>
      match pu.selfCertification.preferredSymmetricAlgorithms with
      | some prefs => addPrefs m prefs
      | none => m
    | none => m) []
  let lookup := fun a => ((prioMap.find? (fun e => e.algo == a)).getD ⟨a, 0, 0⟩)
  let best := (sortNats (prioMap.map SymEntry.algo)).foldl (fun best a =>
    let e := lookup a
    let notPlaintext := true
    let notIdea := true
    if notPlaintext && notIdea && knownSymAlgo a && e.count == keys.length &&
       e.prio > best.1
    then (e.prio, e.algo) else best) (0, config_encryption_cipher)
  best.2

/-- One step of the primary-key cursor: a non-subkey key packet replaces it, anything
else leaves it. -/
def lastPrimaryStep (acc : Option (Bool × KeyPacket)) (pk : Packet) :
    Option (Bool × KeyPacket) :=
  match pk with
  | .key false sec kp => some (sec, kp)
  | _ => acc

/-- The last primary (non-subkey) key packet of a packet sequence, with its
secret/public tag: the builder's `primaryKey` cursor after consuming the sequence. -/
def lastPrimaryPacket (p : List Packet) : Option (Bool × KeyPacket) :=
  p.foldl lastPrimaryStep none

/-- The effect of the builder on the current user of a run of certification /
certification-revocation signatures: each bucket receives the signatures it
classifies. -/
def appendUserSigs (pid : Option Nat) (u : User) (sigs : List Signature) : User :=
  { u with
    revocationSignatures := u.revocationSignatures ++
      sigs.filter (fun s => s.signatureType == SigType.cert_revocation),
    selfCertifications := u.selfCertifications ++
      sigs.filter (fun s => isCertType s.signatureType && pid == some s.issuerKeyId),
    otherCertifications := u.otherCertifications ++
      sigs.filter (fun s => isCertType s.signatureType && !(pid == some s.issuerKeyId)) }

/-- The effect of the builder on the current subkey of a run of binding / subkey
revocation signatures. -/
def appendSubKeySigs (sk : SubKey) (sigs : List Signature) : SubKey :=
  { sk with
    revocationSignatures := sk.revocationSignatures ++
      sigs.filter (fun s => s.signatureType == SigType.subkey_revocation),
    bindingSignatures := sk.bindingSignatures ++
      sigs.filter (fun s => s.signatureType == SigType.subkey_binding) }

/-! Concrete inputs on which the claims are evaluated. -/

/-- C8 input: a v4 key packet created at time 0. -/
def c8KeyPacket : KeyPacket := { keyId := 40, fingerprint := 40, version := 4, created := 0 }

/-- C8 input: a governing self signature created 10000 seconds after the key, carrying
keyExpirationTime = 3600 seconds and keyNeverExpires = false, itself never expired. -/
def c8Signature : Signature :=
  { issuerKeyId := 40, created := 10000000, signatureType := .cert_generic,
    keyExpirationTime := some 3600, keyNeverExpires := some false }

/-- C10 witness input: a target signature whose revoked flag is already true. -/
def c10Target : Signature := { issuerKeyId := 5, created := 0, revoked := some true }

/-- C2 input: a verified self certification created at time 100 (no primary-user-ID
weight). -/
def c2CertEarly : Signature :=
  { issuerKeyId := 1, created := 100, signatureType := .cert_generic, rawSig := 1,
    verified := true }

/-- C2 input: a verified self certification created at time 200. -/
def c2CertLate : Signature :=
  { issuerKeyId := 1, created := 200, signatureType := .cert_generic, rawSig := 2,
    verified := true }

/-- C2 input: one user with the two certifications above. -/
def c2Key : Key :=
  { primaryKey := { keyId := 1, fingerprint := 1 },
    users := [{ uid := 10, selfCertifications := [c2CertEarly, c2CertLate] }] }

/-- C6 input: an ECDSA primary key packet on curve p521 (whose registry hash is
sha512 = 10). -/
def c6Primary : KeyPacket :=
  { keyId := 2, fingerprint := 2, algorithm := .ecdsa, curveOid := .p521 }

/-- C6 input: a verified self certification with no hash preference list. -/
def c6Cert : Signature :=
  { issuerKeyId := 2, created := 10, signatureType := .cert_generic, verified := true }

/-- C6 input: the full key. -/
def c6Key : Key :=
  { primaryKey := c6Primary, users := [{ uid := 20, selfCertifications := [c6Cert] }] }

/-- C7 input: a verified self certification preferring only plaintext (id 0). -/
def c7Cert : Signature :=
  { issuerKeyId := 3, created := 10, signatureType := .cert_generic, verified := true,
    preferredSymmetricAlgorithms := some [0] }

/-- C7 input: the full key. -/
def c7Key : Key :=
  { primaryKey := { keyId := 3, fingerprint := 3 },
    users := [{ uid := 30, selfCertifications := [c7Cert] }] }

/-- C3 input: the first primary key packet. -/
def c3Kp1 : KeyPacket := { keyId := 1, fingerprint := 1 }

/-- C3 input: the second primary key packet. -/
def c3Kp2 : KeyPacket := { keyId := 2, fingerprint := 2 }

/-- C3 input: a packet sequence with two primary key packets. -/
def c3Packets : List Packet :=
  [.key false false c3Kp1, .key false false c3Kp2, .user false 7]

/-- C3 witness input: a minimal packet sequence. -/
def c3wKp : KeyPacket := { keyId := 9, fingerprint := 9 }

/-- C3 witness input: the sequence. -/
def c3wPackets : List Packet := [.key false false c3wKp, .user false 8]

/-- C3 witness input: the key it builds (with an unreachable fallback). -/
def c3wKey : Key :=
  match buildKey c3wPackets with
  | .ok k => k
  | .error _ => { primaryKey := c3wKp }

/-- C5 witness input: a verified self certification with no key flags. -/
def c5Cert : Signature :=
  { issuerKeyId := 6, created := 10, signatureType := .cert_generic, verified := true }

/-- C5 witness input: an rsa_encrypt_sign primary key eligible for both signing and
encryption. -/
def c5Key : Key :=
  { primaryKey := { keyId := 6, fingerprint := 6 },
    users := [{ uid := 60, selfCertifications := [c5Cert] }] }

/-- C4 witness inputs: one signature of each bucket of a structurally good key. -/
def c4SelfCert : Signature :=
  { issuerKeyId := 50, created := 1, signatureType := .cert_generic, rawSig := 300 }

/-- C4 witness input: a third-party certification. -/
def c4OtherCert : Signature :=
  { issuerKeyId := 51, created := 2, signatureType := .cert_positive, rawSig := 301 }

/-- C4 witness input: a certification revocation on the user. -/
def c4UserRev : Signature :=
  { issuerKeyId := 50, created := 3, signatureType := .cert_revocation, rawSig := 302 }

/-- C4 witness input: a key revocation. -/
def c4KeyRev : Signature :=
  { issuerKeyId := 50, created := 4, signatureType := .key_revocation, rawSig := 303 }

/-- C4 witness input: a direct key signature. -/
def c4DirectSig : Signature :=
  { issuerKeyId := 50, created := 5, signatureType := .key_sig, rawSig := 304 }

/-- C4 witness input: a subkey binding signature. -/
def c4Binding : Signature :=
  { issuerKeyId := 50, created := 6, signatureType := .subkey_binding, rawSig := 305 }

/-- C4 witness input: a subkey revocation signature. -/
def c4SubRev : Signature :=
  { issuerKeyId := 50, created := 7, signatureType := .subkey_revocation, rawSig := 306 }

/-- C4 witness input: a structurally good key populating every bucket. -/
def c4Key : Key :=
  { primaryIsSecret := true,
    primaryKey := { keyId := 50, fingerprint := 50 },
    revocationSignatures := [c4KeyRev],
    directSignatures := [c4DirectSig],
    users := [{ uid := 55, selfCertifications := [c4SelfCert],
                otherCertifications := [c4OtherCert],
                revocationSignatures := [c4UserRev] }],
    subKeys := [{ subKey := { keyId := 56, fingerprint := 56 },
                  bindingSignatures := [c4Binding],
                  revocationSignatures := [c4SubRev] }] }

/-- C1 input: the destination binding signature, created at time 10. -/
def c1DstBind : Signature :=
  { issuerKeyId := 1, created := 10, signatureType := .subkey_binding, rawSig := 100,
    verified := true }

/-- C1 input: the source binding signature by the same issuer, created EARLIER (time
5), verified and unexpired. -/
def c1SrcBind : Signature :=
  { issuerKeyId := 1, created := 5, signatureType := .subkey_binding, rawSig := 101,
    verified := true }

/-- C1 input: the destination subkey. -/
def c1DstSub : SubKey :=
  { subKey := { keyId := 11, fingerprint := 11 }, bindingSignatures := [c1DstBind] }

/-- C1 input: the source subkey (same fingerprint). -/
def c1SrcSub : SubKey :=
  { subKey := { keyId := 11, fingerprint := 11 }, bindingSignatures := [c1SrcBind] }

/-- C1 witness input: destination binding created at time 10. -/
def c1wDstBind : Signature :=
  { issuerKeyId := 2, created := 10, signatureType := .subkey_binding, rawSig := 110,
    verified := true }

/-- C1 witness input: source binding by the same issuer created LATER (time 20). -/
def c1wSrcBind : Signature :=
  { issuerKeyId := 2, created := 20, signatureType := .subkey_binding, rawSig := 111,
    verified := true }

/-- C1 witness input: the destination subkey. -/
def c1wDstSub : SubKey :=
  { subKey := { keyId := 12, fingerprint := 12 }, bindingSignatures := [c1wDstBind] }

/-- C1 witness input: the source subkey. -/
def c1wSrcSub : SubKey :=
  { subKey := { keyId := 12, fingerprint := 12 }, bindingSignatures := [c1wSrcBind] }

/-- C9 input: a key-revocation signature that is EXPIRED and does not verify. -/
def c9Rev : Signature :=
  { issuerKeyId := 4, created := 1, signatureType := .key_revocation, rawSig := 200,
    isExpiredF := fun _ => true }

/-- C9 input: a verified self certification shared by both copies of the key. -/
def c9Cert : Signature :=
  { issuerKeyId := 4, created := 2, signatureType := .cert_generic, rawSig := 201,
    verified := true }

/-- C9 input: the destination key, with NO revocation signatures. -/
def c9Dst : Key :=
  { primaryKey := { keyId := 4, fingerprint := 4 },
    users := [{ uid := 40, selfCertifications := [c9Cert] }] }

/-- C9 input: the source key, same fingerprint, carrying the expired revocation. -/
def c9Src : Key :=
  { primaryKey := { keyId := 4, fingerprint := 4 },
    revocationSignatures := [c9Rev],
    users := [{ uid := 40, selfCertifications := [c9Cert] }] }

/-- C9 witness input: a revocation already present in the destination. -/
def c9wDstRev : Signature :=
  { issuerKeyId := 14, created := 1, signatureType := .key_revocation, rawSig := 210,
    verified := true }

/-- C9 witness input: a fresh, verifying, unexpired source revocation. -/
def c9wSrcRev : Signature :=
  { issuerKeyId := 14, created := 3, signatureType := .key_revocation, rawSig := 211,
    verified := true }

/-- C9 witness input: a verified self certification for both copies. -/
def c9wCert : Signature :=
  { issuerKeyId := 14, created := 2, signatureType := .cert_generic, rawSig := 212,
    verified := true }

/-- C9 witness input: the destination key with a non-empty revocation list. -/
def c9wDst : Key :=
  { primaryKey := { keyId := 14, fingerprint := 14 },
    revocationSignatures := [c9wDstRev],
    users := [{ uid := 41, selfCertifications := [c9wCert] }] }

/-- C9 witness input: the source key. -/
def c9wSrc : Key :=
  { primaryKey := { keyId := 14, fingerprint := 14 },
    revocationSignatures := [c9wSrcRev],
    users := [{ uid := 41, selfCertifications := [c9wCert] }] }

/-- C9 witness input: the merged key (with an unreachable fallback). -/
def c9wRes : Key :=
  match Key.updateS 1000 c9wDst c9wSrc with
  | .ok k => k
  | .error _ => c9wDst

/-! Theorems. -/

/-- C8: the claim reads the v4 expiration window as
`created <= t < created + keyExpirationTime` relative to the key packet's creation
time (as does the generator's own documentation of `keyExpirationTime`), but
getExpirationTime adds the seconds to the governing SIGNATURE's created time.  For a
key created at 0 whose self signature was created at 10000 s with
keyExpirationTime = 3600 s, the key is NOT expired at t = created + 3600 s = 3600000 ms
although the claim's window `0 <= t < 3600 s` has already closed. -/
theorem isDataExpired_uses_signature_created_bug :
    isDataExpired c8KeyPacket (some c8Signature) 3600000 = false ∧
    ¬(c8KeyPacket.created ≤ 3600000 ∧
      (3600000 : Int) < c8KeyPacket.created + 3600 * 1000) ∧
    c8Signature.isExpiredF 3600000 = false := by
  refine ⟨by decide, by decide, rfl⟩

/-- C2: getPrimaryUser does not return the maximal candidate.  With one user carrying
two verified, unrevoked, unexpired self certifications created at 100 and 200 (no
primary-user-ID weights), the source sorts the candidates DESCENDING by
`(isPrimaryUserID, created)` and then takes `pop()`, the LAST element, returning the
certification created at 100 — the claim (and the function's own doc comment, "latest
self signature") requires the one created at 200. -/
theorem getPrimaryUser_returns_earliest_bug :
    (Key.getPrimaryUser 1000 c2Key).map (fun pu => pu.selfCertification.created) =
      some 100 ∧ c2CertLate.created = 200 := by
  refine ⟨by decide, rfl⟩

/-- C6: the ECC-curve hash floor is never applied for a full Key.  The signing key
packet of `c6Key` is its ECDSA/p521 primary, whose registry hash is sha512 (10), and
the otherwise-chosen algorithm is the configured sha256 (8), whose 32-byte digest does
not exceed sha512's 64 bytes — the claim requires 10.  But
`key = key.getSigningKeyPacket(undefined, null)` is not awaited, so the prototype
switch sees a Promise and the curve branch is skipped: the function returns 8.  The
same packet passed directly (the non-Key branch) does get the floor. -/
theorem getPreferredHashAlgo_curve_floor_not_applied_bug :
    Key.getSigningKeyPacket c6Key none 5000 = some c6Primary ∧
    c6Primary.algorithm = PubKeyAlgo.ecdsa ∧
    curvePreferredHash c6Primary.curveOid = 10 ∧
    getHashByteLength 8 ≤ getHashByteLength 10 ∧
    getPreferredHashAlgo 5000 (HashTarget.keyT c6Key) = 8 ∧
    getPreferredHashAlgo 5000 (HashTarget.packetT c6Primary) = 10 := by
  refine ⟨by decide, rfl, rfl, by decide, by decide, rfl⟩

/-- C7: getPreferredSymAlgo can return plaintext.  The `for...in` keys of the priority
map are strings while `enums.symmetric.plaintext` and `enums.symmetric.idea` are
numbers, so the strict inequations that are commented `// not plaintext` and
`// not implemented` are always true and never exclude anything.  A single key whose
primary user prefers only plaintext (id 0) makes the function return 0 instead of the
configured default 9 the claim requires. -/
theorem getPreferredSymAlgo_returns_plaintext_bug :
    getPreferredSymAlgo 1000 [c7Key] = 0 ∧ config_encryption_cipher = 9 := by
  refine ⟨by decide, rfl⟩

/-- C3 counterexample: a packet sequence containing a second primary key packet after
the first is accepted without an error — the later packet silently replaces the
earlier one as `primaryKey`. -/
theorem build_accepts_second_key_packet_cex :
    (buildKey c3Packets).map (fun k => k.primaryKey) = Except.ok c3Kp2 := by
  rfl

/-- C1 counterexample: the destination subkey holds a binding created at time 10; the
source subkey (same fingerprint) holds a verifying, unexpired binding by the SAME
issuer created at time 5.  After SubKey.update the destination retains exactly the
EARLIER binding (5) and the later one (10) has been dropped — the claim requires the
later one to be retained. -/
theorem subkey_update_keeps_earlier_binding_cex :
    (SubKey.updateS 1000 c1DstSub c1SrcSub).map
        (fun r => r.bindingSignatures.map sigKey) =
      Except.ok [(1, 5, 101)] ∧
    sigKey c1DstBind = (1, 10, 100) ∧ sigKey c1SrcBind = (1, 5, 101) ∧
    c1SrcBind.created < c1DstBind.created := by
  refine ⟨rfl, rfl, rfl, by decide⟩

/-- C9 counterexample: the destination key has NO revocation signatures; the source
carries one key-revocation signature that is expired and does not verify.  Key.update
adopts it anyway, because mergeSignatures installs the whole source list unchecked
when the destination list is empty. -/
theorem key_update_adopts_expired_revocation_cex :
    (Key.updateS 1000 c9Dst c9Src).map
        (fun k => k.revocationSignatures.map sigKey) =
      Except.ok [sigKey c9Rev] ∧
    c9Rev.isExpiredF 1000 = true ∧ (c9Rev.verified || c9Rev.verifyResult) = false := by
  refine ⟨rfl, rfl, rfl⟩

/-- The target returned by isDataRevoked is the input signature with its revoked flag
conditionally promoted to true, and the result is that flag's truthiness. -/
theorem isDataRevoked_target_shape (revocations : List Signature) (tgt : Signature)
    (date : Int) :
    ∃ c : Bool,
      (isDataRevoked revocations (some tgt) date).target =
        some { tgt with revoked := if c then some true else tgt.revoked } ∧
      (isDataRevoked revocations (some tgt) date).result =
        truthyOB (if c then some true else tgt.revoked) :=
  ⟨_, rfl, rfl⟩

/-- C10: isDataRevoked never resets a target signature's revoked flag.  The updated
flag is either unchanged or true (the write is `match ? true : signature.revoked`),
and when the flag is already true the call returns true and leaves the target
unchanged, whatever the candidate revocations. -/
theorem isDataRevoked_never_clears_revoked_flag (revocations : List Signature)
    (tgt : Signature) (date : Int) :
    ((isDataRevoked revocations (some tgt) date).target.map Signature.revoked =
        some tgt.revoked ∨
     (isDataRevoked revocations (some tgt) date).target.map Signature.revoked =
        some (some true)) ∧
    (tgt.revoked = some true →
      (isDataRevoked revocations (some tgt) date).result = true ∧
      (isDataRevoked revocations (some tgt) date).target = some tgt) := by
  obtain ⟨c, ht, hr⟩ := isDataRevoked_target_shape revocations tgt date
  constructor
  · rw [ht]
    cases c
    · exact Or.inl rfl
    · exact Or.inr rfl
  · intro h
    have he : (if c then some true else tgt.revoked) = some true := by
      cases c <;> simp [h]
    refine ⟨?_, ?_⟩
    · rw [hr, he]; rfl
    · rw [ht, he, ← h]

/-- C10 witness: applying the theorem at a concrete already-revoked target with no
candidate revocations. -/
theorem isDataRevoked_never_clears_revoked_flag_witness :
    c10Target.revoked = some true ∧
    (isDataRevoked [] (some c10Target) 0).result = true ∧
    (isDataRevoked [] (some c10Target) 0).target = some c10Target :=
  ⟨rfl, (isDataRevoked_never_clears_revoked_flag [] c10Target 0).2 rfl⟩

/-- The builder's primary cursor after any packet is that packet when it is a
non-subkey key packet and is otherwise unchanged. -/
theorem buildStep_primary (st : BuildState) (pk : Packet) :
    (buildStep st pk).primary = lastPrimaryStep st.primary pk := by
  cases pk with
  | key sub sec kp => cases sub <;> rfl
  | user a uid => rfl
  | sig s =>
    cases h : s.signatureType <;> simp only [buildStep, h, lastPrimaryStep] <;>
      try split <;> rfl

/-- The builder's primary cursor over a packet list is the last primary key packet
seen, or the initial cursor. -/
theorem foldl_buildStep_primary (ps : List Packet) (st : BuildState) :
    (ps.foldl buildStep st).primary = ps.foldl lastPrimaryStep st.primary := by
  induction ps generalizing st with
  | nil => rfl
  | cons p ps ih =>
    simp only [List.foldl_cons]
    rw [ih, buildStep_primary]

/-- lastPrimaryPacket is the builder's primary cursor from the empty state. -/
theorem lastPrimaryPacket_eq_build (p : List Packet) :
    lastPrimaryPacket p = (p.foldl buildStep {}).primary := by
  rw [lastPrimaryPacket, foldl_buildStep_primary]

/-- C3 amended: the builder raises no error on a repeated primary key packet; instead
the primary key of a successfully built Key is the LAST non-subkey key packet of the
sequence. -/
theorem build_primary_is_last_key_packet (p : List Packet) (K : Key)
    (h : buildKey p = Except.ok K) :
    lastPrimaryPacket p = some (K.primaryIsSecret, K.primaryKey) := by
  simp only [buildKey] at h
  split at h
  next sec kp hp =>
    split at h
    · exact absurd h (by simp)
    · have hK := Except.ok.inj h
      rw [lastPrimaryPacket_eq_build, hp, ← hK]
  next hp => exact absurd h (by simp)

/-- C3 amended witness: the theorem applied at a concrete one-key sequence. -/
theorem build_primary_is_last_key_packet_witness :
    lastPrimaryPacket c3wPackets = some (c3wKey.primaryIsSecret, c3wKey.primaryKey) :=
  build_primary_is_last_key_packet c3wPackets c3wKey rfl

/-- A packet passing isValidSigningKeyPacket is not RSA-encrypt-only, Elgamal or
ECDH. -/
theorem isValidSigningKeyPacket_algo (kp : KeyPacket) (s : Signature) (now : Int)
    (h : isValidSigningKeyPacket kp s now = true) :
    kp.algorithm ≠ .rsa_encrypt ∧ kp.algorithm ≠ .elgamal ∧ kp.algorithm ≠ .ecdh := by
  simp only [isValidSigningKeyPacket, Bool.and_eq_true, bne_iff_ne] at h
  obtain ⟨⟨⟨⟨⟨⟨⟨hA, hB⟩, hC⟩, _⟩, _⟩, _⟩, _⟩, _⟩ := h
  exact ⟨hA, hB, hC⟩

/-- A packet passing isValidEncryptionKeyPacket is not DSA, RSA-sign-only, ECDSA or
EdDSA. -/
theorem isValidEncryptionKeyPacket_algo (kp : KeyPacket) (s : Signature) (now : Int)
    (h : isValidEncryptionKeyPacket kp s now = true) :
    kp.algorithm ≠ .dsa ∧ kp.algorithm ≠ .rsa_sign ∧ kp.algorithm ≠ .ecdsa ∧
    kp.algorithm ≠ .eddsa := by
  simp only [isValidEncryptionKeyPacket, Bool.and_eq_true, bne_iff_ne] at h
  obtain ⟨⟨⟨⟨⟨⟨⟨⟨hA, hB⟩, hC⟩, hD⟩, _⟩, _⟩, _⟩, _⟩, _⟩ := h
  exact ⟨hA, hB, hC, hD⟩

/-- A truthy primary eligibility for signing implies the primary passed
isValidSigningKeyPacket under some certification. -/
theorem signingPrimaryOk_isValid (k : Key) (keyId : Option Nat) (now : Int)
    (h : signingPrimaryOk k keyId now = true) :
    ∃ s, isValidSigningKeyPacket k.primaryKey s now = true := by
  unfold signingPrimaryOk at h
  split at h
  next pu _ =>
    simp only [Bool.and_eq_true] at h
    exact ⟨pu.selfCertification, h.1.2⟩
  next => exact absurd h (by simp)

/-- A truthy primary eligibility for encryption implies the primary passed
isValidEncryptionKeyPacket under some certification. -/
theorem encryptionPrimaryOk_isValid (k : Key) (keyId : Option Nat) (now : Int)
    (h : encryptionPrimaryOk k keyId now = true) :
    ∃ s, isValidEncryptionKeyPacket k.primaryKey s now = true := by
  unfold encryptionPrimaryOk at h
  split at h
  next pu _ =>
    simp only [Bool.and_eq_true] at h
    exact ⟨pu.selfCertification, h.1.2⟩
  next => exact absurd h (by simp)

/-- Any packet returned by the signing subkey loop passed
isValidSigningKeyPacket under one of its binding signatures. -/
theorem findSigningSubkey_algo (now : Int) (keyId : Option Nat) (sks : List SubKey)
    (kp : KeyPacket) (h : findSigningSubkey now keyId sks = some kp) :
    kp.algorithm ≠ .rsa_encrypt ∧ kp.algorithm ≠ .elgamal ∧ kp.algorithm ≠ .ecdh := by
  induction sks with
  | nil => simp [findSigningSubkey] at h
  | cons sk sks ih =>
    simp only [findSigningSubkey] at h
    split at h
    · split at h
      next b hb =>
        have hkp := Option.some.inj h
        have hval := List.find?_some hb
        rw [← hkp]
        exact isValidSigningKeyPacket_algo _ _ _ hval
      next => exact ih h
    · exact ih h

/-- Any packet returned by the encryption subkey loop passed
isValidEncryptionKeyPacket under one of its binding signatures. -/
theorem findEncryptionSubkey_algo (now : Int) (keyId : Option Nat) (sks : List SubKey)
    (kp : KeyPacket) (h : findEncryptionSubkey now keyId sks = some kp) :
    kp.algorithm ≠ .dsa ∧ kp.algorithm ≠ .rsa_sign ∧ kp.algorithm ≠ .ecdsa ∧
    kp.algorithm ≠ .eddsa := by
  induction sks with
  | nil => simp [findEncryptionSubkey] at h
  | cons sk sks ih =>
    simp only [findEncryptionSubkey] at h
    split at h
    · split at h
      next b hb =>
        have hkp := Option.some.inj h
        have hval := List.find?_some hb
        rw [← hkp]
        exact isValidEncryptionKeyPacket_algo _ _ _ hval
      next => exact ih h
    · exact ih h

/-- C5: getSigningKeyPacket never returns an rsa_encrypt, elgamal or ecdh packet, and
getEncryptionKeyPacket never returns a dsa, rsa_sign, ecdsa or eddsa packet: every
returned packet, primary or subkey, passed the corresponding isValid*KeyPacket filter,
whose first conjuncts are exactly these algorithm exclusions. -/
theorem operation_selector_algorithm_disjointness (k : Key) (keyId : Option Nat)
    (now : Int) :
    (∀ kp, Key.getSigningKeyPacket k keyId now = some kp →
      kp.algorithm ≠ .rsa_encrypt ∧ kp.algorithm ≠ .elgamal ∧ kp.algorithm ≠ .ecdh) ∧
    (∀ kp, Key.getEncryptionKeyPacket k keyId now = some kp →
      kp.algorithm ≠ .dsa ∧ kp.algorithm ≠ .rsa_sign ∧ kp.algorithm ≠ .ecdsa ∧
      kp.algorithm ≠ .eddsa) := by
  constructor
  · intro kp h
    rw [Key.getSigningKeyPacket] at h
    split at h
    next hok =>
      obtain ⟨s, hval⟩ := signingPrimaryOk_isValid k keyId now hok
      rw [← Option.some.inj h]
      exact isValidSigningKeyPacket_algo _ _ _ hval
    next => exact findSigningSubkey_algo _ _ _ _ h
  · intro kp h
    rw [Key.getEncryptionKeyPacket] at h
    split at h
    next kp2 hkp2 =>
      rw [← Option.some.inj h]
      exact findEncryptionSubkey_algo _ _ _ _ hkp2
    next =>
      split at h
      next hok =>
        obtain ⟨s, hval⟩ := encryptionPrimaryOk_isValid k keyId now hok
        rw [← Option.some.inj h]
        exact isValidEncryptionKeyPacket_algo _ _ _ hval
      next => exact absurd h (by simp)

/-- C5 witness: a concrete key on which both selectors return its
rsa_encrypt_sign primary packet, with the exclusions instantiated. -/
theorem operation_selector_algorithm_disjointness_witness :
    Key.getSigningKeyPacket c5Key none 5000 = some c5Key.primaryKey ∧
    c5Key.primaryKey.algorithm ≠ PubKeyAlgo.ecdh ∧
    Key.getEncryptionKeyPacket c5Key none 5000 = some c5Key.primaryKey ∧
    c5Key.primaryKey.algorithm ≠ PubKeyAlgo.eddsa :=
  ⟨rfl,
   ((operation_selector_algorithm_disjointness c5Key none 5000).1
     c5Key.primaryKey rfl).2.2,
   rfl,
   ((operation_selector_algorithm_disjointness c5Key none 5000).2
     c5Key.primaryKey rfl).2.2.2⟩

/-- SubKey.verify on a subkey with a single verifying binding signature and no
revocation signatures: the status is never invalid, and the binding is returned with
its caches possibly updated but its identity, expiration oracle, created time, issuer
and raw bytes unchanged. -/
theorem verifyS_singleton (now : Int) (sk : SubKey) (s : Signature)
    (hs : sk.bindingSignatures = [s]) (hsr : sk.revocationSignatures = [])
    (hver : (s.verified || s.verifyResult) = true) :
    ∃ s2, (SubKey.verifyS now sk).2.bindingSignatures = [s2] ∧
      (SubKey.verifyS now sk).2.revocationSignatures = [] ∧
      (((SubKey.verifyS now sk).1 == KeyStatus.invalid) = false) ∧
      sigKey s2 = sigKey s ∧ s2.isExpiredF = s.isExpiredF ∧
      (s2.verified || s2.verifyResult) = true ∧
      s2.created = s.created ∧ s2.issuerKeyId = s.issuerKeyId ∧
      s2.rawSig = s.rawSig := by
  by_cases hv3 : (sk.subKey.version == 3 && isDataExpired sk.subKey none now) = true
  · refine ⟨s, ?_, ?_, ?_, rfl, rfl, hver, rfl, rfl, rfl⟩ <;>
      simp [SubKey.verifyS, hv3, hs, hsr]
  · have hstep := rfl (a := bindingStatusStep now [] s)
    rw [SubKey.verifyS, if_neg hv3, hs, hsr]
    simp only [List.foldl_cons, List.foldl_nil]
    rw [bindingStatusStep, if_neg (by rw [hver]; decide)]
    by_cases hrv : truthyOB s.revoked = true
    · rw [if_pos hrv]
      exact ⟨{ s with verified := true }, rfl, rfl, rfl, rfl, rfl, by simp, rfl, rfl,
        rfl⟩
    · rw [if_neg hrv]
      have hrd : isDataRevoked [] (some { s with verified := true }) now =
          { result := truthyOB s.revoked, revocations := [],
            target := some { s with verified := true } } := by
        unfold isDataRevoked
        simp
      rw [hrd]
      simp only [Option.getD_some]
      rw [if_neg hrv]
      by_cases hbe : ({ s with verified := true } : Signature).isExpiredF now = true
      · rw [if_pos hbe]
        exact ⟨{ s with verified := true }, rfl, rfl, rfl, rfl, rfl, by simp, rfl,
          rfl, rfl⟩
      · rw [if_neg hbe]
        exact ⟨{ s with verified := true }, rfl, rfl, by simp, rfl, rfl, by simp, rfl,
          rfl, rfl⟩

/-- The binding merge of one verifying unexpired source binding into a singleton
destination list sharing its issuer: a strictly older source REPLACES the destination
binding (keeping the earlier of the two), while a source not strictly older is
appended next to it unless its bytes duplicate it. -/
theorem mergeSignatures_binding_singleton (now : Int) (s d : Signature)
    (hiss : s.issuerKeyId = d.issuerKeyId)
    (hver : (s.verified || s.verifyResult) = true)
    (hexp : s.isExpiredF now = false) :
    mergeSignatures now [s] [d] bindingMergeCheck =
      (if s.created < d.created then [s]
       else if d.rawSig == s.rawSig then [d] else [d, s]) := by
  have hc : bindingMergeCheck s [d] =
      (if s.created < d.created then (false, [s]) else (true, [d])) := by
    rw [bindingMergeCheck, if_neg (by rw [hver]; decide)]
    simp only [bindingMergeLoop]
    by_cases h1 : s.created < d.created
    · rw [if_pos (by simp [hiss, h1]), if_pos h1]
    · rw [if_neg (by simp [hiss, h1]), if_neg h1]
  rw [mergeSignatures]
  simp only [List.isEmpty_cons, Bool.false_eq_true, if_false, List.foldl_cons,
    List.foldl_nil, hexp, hc]
  by_cases h1 : s.created < d.created
  · simp [h1]
  · by_cases h2 : (d.rawSig == s.rawSig) = true
    · simp [h1, h2, equalsBytes]
    · simp [h1, h2, equalsBytes]

/-- C1 amended: in SubKey.update, when a verifying, unexpired source binding shares
its issuer with the (single) existing destination binding, the destination afterwards
holds the EARLIER-created signature alone when the source is strictly older (the later
one is dropped by in-place replacement), and otherwise holds BOTH signatures — the
destination's and the appended source's — unless the source duplicates the
destination's raw bytes. -/
theorem subkey_update_binding_merge_rule (now : Int) (d s : Signature)
    (dst src : SubKey)
    (hd : dst.bindingSignatures = [d])
    (hs : src.bindingSignatures = [s])
    (hsr : src.revocationSignatures = [])
    (hfp : dst.subKey.fingerprint = src.subKey.fingerprint)
    (hiss : s.issuerKeyId = d.issuerKeyId)
    (hver : (s.verified || s.verifyResult) = true)
    (hexp : s.isExpiredF now = false) :
    (SubKey.updateS now dst src).map (fun r => r.bindingSignatures.map sigKey) =
      Except.ok (if s.created < d.created then [sigKey s]
                 else if d.rawSig == s.rawSig then [sigKey d]
                 else [sigKey d, sigKey s]) := by
  obtain ⟨s2, hb2, hr2, hst, hsk2, hie2, hv2, hc2, hi2, hraw2⟩ :=
    verifyS_singleton now src s hs hsr hver
  rw [SubKey.updateS]
  simp only [hst, Bool.false_eq_true, if_false]
  rw [if_neg (by simp [hfp])]
  have hdb : (if !dst.isSecret && (SubKey.verifyS now src).2.isSecret then
      { dst with isSecret := true,
                 subKey := (SubKey.verifyS now src).2.subKey }
    else dst).bindingSignatures = [d] := by
    split <;> simpa using hd
  rw [hb2, hdb]
  rw [mergeSignatures_binding_singleton now s2 d (hi2.trans hiss) hv2
    (by rw [hie2]; exact hexp)]
  rw [hc2, hraw2]
  by_cases h1 : s.created < d.created
  · simp [Except.map, h1, hsk2]
  · by_cases h2 : (d.rawSig == s.rawSig) = true
    · simp [Except.map, h1, h2]
    · simp [Except.map, h1, h2, hsk2]

/-- C1 amended witness: the theorem applied at a concrete pair where the source
binding is newer — both bindings remain. -/
theorem subkey_update_binding_merge_rule_witness :
    (SubKey.updateS 1000 c1wDstSub c1wSrcSub).map
        (fun r => r.bindingSignatures.map sigKey) =
      Except.ok
        (if c1wSrcBind.created < c1wDstBind.created then [sigKey c1wSrcBind]
         else if c1wDstBind.rawSig == c1wSrcBind.rawSig then [sigKey c1wDstBind]
         else [sigKey c1wDstBind, sigKey c1wSrcBind]) :=
  subkey_update_binding_merge_rule 1000 c1wDstBind c1wSrcBind c1wDstSub c1wSrcSub
    rfl rfl rfl rfl rfl rfl rfl

/-- The revocation merge check passes exactly when the single candidate verifies, and
it never rewrites the destination list. -/
theorem revocationMergeCheck_eval (now : Int) (s : Signature) (l : List Signature) :
    revocationMergeCheck now s l = ((s.verified || s.verifyResult), l) := by
  rw [revocationMergeCheck]
  unfold isDataRevoked config_revocations_expire
  cases hv : s.verified <;> cases ho : s.verifyResult <;> simp [hv, ho]

/-- Invariant of the merge fold with the revocation check: every signature of the
result was already in the original destination or verifies and is unexpired. -/
theorem mergeRevFold_mem (now : Int) (dst : List Signature) :
    ∀ (src acc : List Signature),
      (∀ x ∈ acc, x ∈ dst ∨
        (x.isExpiredF now = false ∧ (x.verified || x.verifyResult) = true)) →
      ∀ x ∈ src.foldl
          (fun acc s =>
            if s.isExpiredF now then acc
            else
              let r := revocationMergeCheck now s acc
              if r.1 && !(r.2.any (fun d => equalsBytes d s)) then r.2 ++ [s]
              else r.2)
          acc,
        x ∈ dst ∨
          (x.isExpiredF now = false ∧ (x.verified || x.verifyResult) = true) := by
  intro src
  induction src with
  | nil => intro acc hacc x hx; exact hacc x hx
  | cons s ss ih =>
    intro acc hacc x hx
    rw [List.foldl_cons] at hx
    refine ih _ ?_ x hx
    intro y hy
    by_cases he : s.isExpiredF now = true
    · simp only [he, if_true] at hy
      exact hacc y hy
    · simp only [he, Bool.false_eq_true, if_false, revocationMergeCheck_eval] at hy
      split at hy
      next hcond =>
        rcases List.mem_append.mp hy with hy2 | hy2
        · exact hacc y hy2
        · have hys : y = s := List.mem_singleton.mp hy2
          subst hys
          simp only [Bool.and_eq_true] at hcond
          exact Or.inr ⟨by simpa using he, hcond.1⟩
      next => exact hacc y hy

/-- mergeSignatures with the revocation check over a NON-EMPTY destination only adds
source signatures that are unexpired and verify. -/
theorem mergeSignatures_revCheck_mem (now : Int) (src dst : List Signature)
    (hne : dst.isEmpty = false) :
    ∀ x ∈ mergeSignatures now src dst (revocationMergeCheck now),
      x ∈ dst ∨
        (x.isExpiredF now = false ∧ (x.verified || x.verifyResult) = true) := by
  rw [mergeSignatures, hne]
  simp only [Bool.false_eq_true, if_false]
  exact mergeRevFold_mem now dst src dst (fun x hx => Or.inl hx)

/-- adoptPrivate never changes the revocation-signature list. -/
theorem adoptPrivate_revs (dst src dst2 : Key)
    (h : adoptPrivate dst src = Except.ok dst2) :
    dst2.revocationSignatures = dst.revocationSignatures := by
  unfold adoptPrivate at h
  split at h
  · split at h
    · exact absurd h (by simp)
    · rw [← Except.ok.inj h]
  · rw [← Except.ok.inj h]

/-- C9 amended: in Key.update, PROVIDED the destination already holds at least one
revocation signature, a signature ends up in the merged revocation list only if it was
already in the destination or is unexpired and verifies as a revocation (and is not a
raw-byte duplicate); when the destination list is empty, the source's entire list is
adopted without any checks (see the counterexample). -/
theorem key_update_revocation_merge_filtered (now : Int) (dst src res : Key)
    (h : Key.updateS now dst src = Except.ok res)
    (hne : dst.revocationSignatures ≠ []) :
    ∀ s ∈ res.revocationSignatures,
      s ∈ dst.revocationSignatures ∨
      (s.isExpiredF now = false ∧ (s.verified || s.verifyResult) = true) := by
  have hneb : dst.revocationSignatures.isEmpty = false := by
    cases hd : dst.revocationSignatures
    · exact absurd hd hne
    · rfl
  rw [Key.updateS] at h
  split at h
  · intro s hs
    rw [← Except.ok.inj h] at hs
    exact Or.inl hs
  · split at h
    · exact absurd h (by simp)
    · split at h
      next e _ => exact absurd h (by simp)
      next dst2 hap =>
        split at h
        next e _ => exact absurd h (by simp)
        next sks _ =>
          have hres := Except.ok.inj h
          intro s hs
          rw [← hres] at hs
          have h2 : dst2.revocationSignatures = dst.revocationSignatures :=
            adoptPrivate_revs dst src dst2 hap
          have h3 : dst2.revocationSignatures.isEmpty = false := by rw [h2]; exact hneb
          have h4 := mergeSignatures_revCheck_mem now src.revocationSignatures
            dst2.revocationSignatures h3 s (by simpa using hs)
          rw [h2] at h4
          exact h4

/-- C9 amended witness: the theorem applied at a concrete merge whose destination
already holds one revocation. -/
theorem key_update_revocation_merge_filtered_witness :
    c9wDst.revocationSignatures ≠ [] ∧
    ∀ s ∈ c9wRes.revocationSignatures,
      s ∈ c9wDst.revocationSignatures ∨
      (s.isExpiredF 1000 = false ∧ (s.verified || s.verifyResult) = true) :=
  ⟨List.cons_ne_nil _ _,
   key_update_revocation_merge_filtered 1000 c9wDst c9wSrc c9wRes rfl
     (List.cons_ne_nil _ _)⟩

/-- Filtering keeps a list all of whose members satisfy the predicate. -/
theorem filter_of_all (p : α → Bool) :
    ∀ (l : List α), (∀ x ∈ l, p x = true) → l.filter p = l := by
  intro l
  induction l with
  | nil => intro _; rfl
  | cons a l ih =>
    intro h
    rw [List.filter_cons, if_pos (h a (by simp)), ih (fun x hx => h x (by simp [hx]))]

/-- Filtering empties a list none of whose members satisfy the predicate. -/
theorem filter_of_none (p : α → Bool) :
    ∀ (l : List α), (∀ x ∈ l, p x = false) → l.filter p = [] := by
  intro l
  induction l with
  | nil => intro _; rfl
  | cons a l ih =>
    intro h
    rw [List.filter_cons, if_neg (by simp [h a (by simp)]),
      ih (fun x hx => h x (by simp [hx]))]

/-- modifyLast on a list with an explicit last element. -/
theorem modifyLast_append_last (f : α → α) (us : List α) (u : α) :
    modifyLast f (us ++ [u]) = us ++ [f u] := by
  induction us with
  | nil => rfl
  | cons a us ih =>
    cases us with
    | nil => rfl
    | cons b us2 =>
      simp only [List.cons_append] at ih ⊢
      rw [modifyLast, ih]

/-- A certification signature type is not cert_revocation. -/
theorem isCertType_ne_certRev {t : SigType} (h : isCertType t = true) :
    (t == SigType.cert_revocation) = false := by
  cases t <;> simp_all [isCertType]

/-- The builder over a run of key revocations, key signatures and standalone
certification revocations, with no current user and no current subkey, distributes
them over the key's revocation and direct buckets. -/
theorem build_sigs_preUser (sigs : List Signature) :
    ∀ (pr : Option (Bool × KeyPacket)) (pid : Option Nat) (rv dr : List Signature)
      (us : List User) (sks : List SubKey),
      (∀ s ∈ sigs, s.signatureType = SigType.key_revocation ∨
          s.signatureType = SigType.key_sig ∨
          s.signatureType = SigType.cert_revocation) →
      List.foldl buildStep ⟨pr, pid, rv, dr, us, sks, false, false⟩
          (sigs.map Packet.sig) =
        ⟨pr, pid,
         rv ++ sigs.filter (fun s => s.signatureType == SigType.key_revocation),
         dr ++ sigs.filter (fun s => s.signatureType == SigType.key_sig ||
            s.signatureType == SigType.cert_revocation),
         us, sks, false, false⟩ := by
  induction sigs with
  | nil => intro pr pid rv dr us sks _; simp
  | cons s ss ih =>
    intro pr pid rv dr us sks h
    rw [List.map_cons, List.foldl_cons]
    have hss := fun x hx => h x (List.mem_cons_of_mem s hx)
    obtain h1 | h1 | h1 := h s (by simp)
    · have hb : buildStep ⟨pr, pid, rv, dr, us, sks, false, false⟩ (.sig s) =
          ⟨pr, pid, rv ++ [s], dr, us, sks, false, false⟩ := by
        simp [buildStep, h1]
      rw [hb, ih _ _ _ _ _ _ hss]
      simp [List.filter_cons, h1, List.append_assoc]
    · have hb : buildStep ⟨pr, pid, rv, dr, us, sks, false, false⟩ (.sig s) =
          ⟨pr, pid, rv, dr ++ [s], us, sks, false, false⟩ := by
        simp [buildStep, h1]
      rw [hb, ih _ _ _ _ _ _ hss]
      simp [List.filter_cons, h1, List.append_assoc]
    · have hb : buildStep ⟨pr, pid, rv, dr, us, sks, false, false⟩ (.sig s) =
          ⟨pr, pid, rv, dr ++ [s], us, sks, false, false⟩ := by
        simp [buildStep, h1]
      rw [hb, ih _ _ _ _ _ _ hss]
      simp [List.filter_cons, h1, List.append_assoc]

/-- Absorbing one classified certification into appendUserSigs. -/
theorem appendUserSigs_cons_cert (pid : Option Nat) (u : User) (s : Signature)
    (ss : List Signature) (h1 : isCertType s.signatureType = true) :
    appendUserSigs pid u (s :: ss) = appendUserSigs pid (pushSelfOrOther pid s u) ss := by
  unfold appendUserSigs pushSelfOrOther
  by_cases hp : (pid == some s.issuerKeyId) = true
  · rw [if_pos hp]
    simp [List.filter_cons, h1, hp, isCertType_ne_certRev h1, List.append_assoc]
  · rw [if_neg hp]
    simp only [Bool.not_eq_true] at hp
    simp [List.filter_cons, h1, hp, isCertType_ne_certRev h1, List.append_assoc]

/-- Absorbing one certification revocation into appendUserSigs. -/
theorem appendUserSigs_cons_rev (pid : Option Nat) (u : User) (s : Signature)
    (ss : List Signature) (h1 : s.signatureType = SigType.cert_revocation) :
    appendUserSigs pid u (s :: ss) =
      appendUserSigs pid
        { u with revocationSignatures := u.revocationSignatures ++ [s] } ss := by
  unfold appendUserSigs
  simp [List.filter_cons, h1, isCertType, List.append_assoc]

/-- The builder over a run of certifications and certification revocations with a
current user (the last of the users list) accumulates them into that user. -/
theorem build_userSigs (sigs : List Signature) :
    ∀ (pr : Option (Bool × KeyPacket)) (pid : Option Nat) (rv dr : List Signature)
      (us : List User) (u : User) (sks : List SubKey) (skt : Bool),
      (∀ s ∈ sigs, isCertType s.signatureType = true ∨
          s.signatureType = SigType.cert_revocation) →
      List.foldl buildStep ⟨pr, pid, rv, dr, us ++ [u], sks, true, skt⟩
          (sigs.map Packet.sig) =
        ⟨pr, pid, rv, dr, us ++ [appendUserSigs pid u sigs], sks, true, skt⟩ := by
  induction sigs with
  | nil => intro pr pid rv dr us u sks skt _; simp [appendUserSigs]
  | cons s ss ih =>
    intro pr pid rv dr us u sks skt h
    rw [List.map_cons, List.foldl_cons]
    have hss := fun x hx => h x (List.mem_cons_of_mem s hx)
    obtain h1 | h1 := h s (by simp)
    · have hb : buildStep ⟨pr, pid, rv, dr, us ++ [u], sks, true, skt⟩ (.sig s) =
          ⟨pr, pid, rv, dr, us ++ [pushSelfOrOther pid s u], sks, true, skt⟩ := by
        cases ht : s.signatureType
        case cert_generic => simp [buildStep, ht, modifyLast_append_last]
        case cert_persona => simp [buildStep, ht, modifyLast_append_last]
        case cert_casual => simp [buildStep, ht, modifyLast_append_last]
        case cert_positive => simp [buildStep, ht, modifyLast_append_last]
        all_goals (rw [ht] at h1; simp [isCertType] at h1)
      rw [hb, ih _ _ _ _ _ _ _ _ hss, appendUserSigs_cons_cert pid u s ss h1]
    · have hb : buildStep ⟨pr, pid, rv, dr, us ++ [u], sks, true, skt⟩ (.sig s) =
          ⟨pr, pid, rv, dr,
           us ++ [{ u with revocationSignatures := u.revocationSignatures ++ [s] }],
           sks, true, skt⟩ := by
        simp [buildStep, h1, modifyLast_append_last]
      rw [hb, ih _ _ _ _ _ _ _ _ hss, appendUserSigs_cons_rev pid u s ss h1]

/-- A cert_revocation signature type is not a certification type. -/
theorem certRev_not_certType {t : SigType} (h : t = SigType.cert_revocation) :
    isCertType t = false := by
  cases t <;> simp_all [isCertType]

/-- The appended buckets of a fresh user over its own serialized signature run
reconstruct the user. -/
theorem appendUserSigs_fresh (pid : Nat) (u : User) (hg : goodUser pid u = true) :
    appendUserSigs (some pid) { isAttr := u.isAttr, uid := u.uid }
        (u.revocationSignatures ++ (u.selfCertifications ++ u.otherCertifications)) =
      u := by
  simp only [goodUser, Bool.and_eq_true, List.all_eq_true] at hg
  obtain ⟨⟨hrev, hself⟩, hother⟩ := hg
  have hrevT : ∀ x ∈ u.revocationSignatures,
      x.signatureType = SigType.cert_revocation := fun x hx => by
    have := hrev x hx; simpa [beq_iff_eq] using this
  have hselfC : ∀ x ∈ u.selfCertifications,
      isCertType x.signatureType = true ∧ x.issuerKeyId = pid := fun x hx => by
    have := hself x hx; simpa [Bool.and_eq_true, beq_iff_eq] using this
  have hotherC : ∀ x ∈ u.otherCertifications,
      isCertType x.signatureType = true ∧ ¬x.issuerKeyId = pid := fun x hx => by
    have := hother x hx; simpa [Bool.and_eq_true, bne_iff_ne] using this
  unfold appendUserSigs
  rw [List.filter_append, List.filter_append, List.filter_append, List.filter_append,
    List.filter_append, List.filter_append]
  rw [filter_of_all (fun s => s.signatureType == SigType.cert_revocation)
      u.revocationSignatures (fun x hx => by simp [hrevT x hx]),
    filter_of_none (fun s => isCertType s.signatureType &&
        (some pid == some s.issuerKeyId)) u.revocationSignatures
      (fun x hx => by simp [certRev_not_certType (hrevT x hx)]),
    filter_of_none (fun s => isCertType s.signatureType &&
        !(some pid == some s.issuerKeyId)) u.revocationSignatures
      (fun x hx => by simp [certRev_not_certType (hrevT x hx)]),
    filter_of_none (fun s => s.signatureType == SigType.cert_revocation)
      u.selfCertifications
      (fun x hx => by simp [isCertType_ne_certRev (hselfC x hx).1]),
    filter_of_all (fun s => isCertType s.signatureType &&
        (some pid == some s.issuerKeyId)) u.selfCertifications
      (fun x hx => by simp [(hselfC x hx).1, (hselfC x hx).2]),
    filter_of_none (fun s => isCertType s.signatureType &&
        !(some pid == some s.issuerKeyId)) u.selfCertifications
      (fun x hx => by simp [(hselfC x hx).1, (hselfC x hx).2]),
    filter_of_none (fun s => s.signatureType == SigType.cert_revocation)
      u.otherCertifications
      (fun x hx => by simp [isCertType_ne_certRev (hotherC x hx).1]),
    filter_of_none (fun s => isCertType s.signatureType &&
        (some pid == some s.issuerKeyId)) u.otherCertifications
      (fun x hx => by simp [(hotherC x hx).1, Ne.symm (hotherC x hx).2]),
    filter_of_all (fun s => isCertType s.signatureType &&
        !(some pid == some s.issuerKeyId)) u.otherCertifications
      (fun x hx => by simp [(hotherC x hx).1, Ne.symm (hotherC x hx).2])]
  simp

/-- The builder over one serialized user block appends exactly that user. -/
theorem build_user_block (u : User) (pid : Nat)
    (pr : Option (Bool × KeyPacket)) (rv dr : List Signature) (us : List User)
    (sks : List SubKey) (ust skt : Bool) (hg : goodUser pid u = true) :
    List.foldl buildStep ⟨pr, some pid, rv, dr, us, sks, ust, skt⟩
        (User.toPacketlist u) =
      ⟨pr, some pid, rv, dr, us ++ [u], sks, true, skt⟩ := by
  have hcerts : ∀ s ∈ u.revocationSignatures ++
      (u.selfCertifications ++ u.otherCertifications),
      isCertType s.signatureType = true ∨
        s.signatureType = SigType.cert_revocation := by
    simp only [goodUser, Bool.and_eq_true, List.all_eq_true] at hg
    obtain ⟨⟨hrev, hself⟩, hother⟩ := hg
    intro s hs
    rcases List.mem_append.mp hs with hs2 | hs2
    · refine Or.inr ?_
      have := hrev s hs2
      simpa [beq_iff_eq] using this
    · rcases List.mem_append.mp hs2 with hs3 | hs3
      · refine Or.inl ?_
        have := hself s hs3
        simp only [Bool.and_eq_true] at this
        exact this.1
      · refine Or.inl ?_
        have := hother s hs3
        simp only [Bool.and_eq_true] at this
        exact this.1
  rw [User.toPacketlist, List.foldl_cons, List.append_assoc]
  have hb : buildStep ⟨pr, some pid, rv, dr, us, sks, ust, skt⟩
      (.user u.isAttr u.uid) =
      ⟨pr, some pid, rv, dr, us ++ [{ isAttr := u.isAttr, uid := u.uid }], sks, true,
       skt⟩ := rfl
  rw [hb, build_userSigs _ _ _ _ _ _ _ _ _ hcerts, appendUserSigs_fresh pid u hg]

/-- The builder over a run of serialized user blocks appends exactly those users. -/
theorem build_user_blocks (usrs : List User) (pid : Nat) :
    ∀ (pr : Option (Bool × KeyPacket)) (rv dr : List Signature) (us : List User)
      (sks : List SubKey) (ust skt : Bool),
      usrs.all (goodUser pid) = true →
      List.foldl buildStep ⟨pr, some pid, rv, dr, us, sks, ust, skt⟩
          ((usrs.map User.toPacketlist).flatten) =
        ⟨pr, some pid, rv, dr, us ++ usrs, sks,
         (if usrs.isEmpty then ust else true), skt⟩ := by
  induction usrs with
  | nil => intro pr rv dr us sks ust skt _; simp
  | cons u usrs ih =>
    intro pr rv dr us sks ust skt hg
    simp only [List.all_cons, Bool.and_eq_true] at hg
    rw [List.map_cons, List.flatten_cons, List.foldl_append,
      build_user_block u pid pr rv dr us sks ust skt hg.1,
      ih pr rv dr (us ++ [u]) sks true skt hg.2]
    cases usrs <;> simp

/-- Absorbing one binding signature into appendSubKeySigs. -/
theorem appendSubKeySigs_cons_bind (sk : SubKey) (s : Signature)
    (ss : List Signature) (h1 : s.signatureType = SigType.subkey_binding) :
    appendSubKeySigs sk (s :: ss) =
      appendSubKeySigs
        { sk with bindingSignatures := sk.bindingSignatures ++ [s] } ss := by
  unfold appendSubKeySigs
  simp [List.filter_cons, h1, List.append_assoc]

/-- Absorbing one subkey revocation into appendSubKeySigs. -/
theorem appendSubKeySigs_cons_rev (sk : SubKey) (s : Signature)
    (ss : List Signature) (h1 : s.signatureType = SigType.subkey_revocation) :
    appendSubKeySigs sk (s :: ss) =
      appendSubKeySigs
        { sk with revocationSignatures := sk.revocationSignatures ++ [s] } ss := by
  unfold appendSubKeySigs
  simp [List.filter_cons, h1, List.append_assoc]

/-- The builder over a run of binding and subkey-revocation signatures with a current
subkey (the last of the subkey list) accumulates them into that subkey. -/
theorem build_subKeySigs (sigs : List Signature) :
    ∀ (pr : Option (Bool × KeyPacket)) (pid : Option Nat) (rv dr : List Signature)
      (us : List User) (sks : List SubKey) (sk : SubKey) (ust : Bool),
      (∀ s ∈ sigs, s.signatureType = SigType.subkey_binding ∨
          s.signatureType = SigType.subkey_revocation) →
      List.foldl buildStep ⟨pr, pid, rv, dr, us, sks ++ [sk], ust, true⟩
          (sigs.map Packet.sig) =
        ⟨pr, pid, rv, dr, us, sks ++ [appendSubKeySigs sk sigs], ust, true⟩ := by
  induction sigs with
  | nil => intro pr pid rv dr us sks sk ust _; simp [appendSubKeySigs]
  | cons s ss ih =>
    intro pr pid rv dr us sks sk ust h
    rw [List.map_cons, List.foldl_cons]
    have hss := fun x hx => h x (List.mem_cons_of_mem s hx)
    obtain h1 | h1 := h s (by simp)
    · have hb : buildStep ⟨pr, pid, rv, dr, us, sks ++ [sk], ust, true⟩ (.sig s) =
          ⟨pr, pid, rv, dr, us,
           sks ++ [{ sk with bindingSignatures := sk.bindingSignatures ++ [s] }],
           ust, true⟩ := by
        simp [buildStep, h1, modifyLast_append_last]
      rw [hb, ih _ _ _ _ _ _ _ _ hss, appendSubKeySigs_cons_bind sk s ss h1]
    · have hb : buildStep ⟨pr, pid, rv, dr, us, sks ++ [sk], ust, true⟩ (.sig s) =
          ⟨pr, pid, rv, dr, us,
           sks ++ [{ sk with revocationSignatures := sk.revocationSignatures ++ [s] }],
           ust, true⟩ := by
        simp [buildStep, h1, modifyLast_append_last]
      rw [hb, ih _ _ _ _ _ _ _ _ hss, appendSubKeySigs_cons_rev sk s ss h1]

/-- The appended buckets of a fresh subkey over its own serialized signature run
reconstruct the subkey. -/
theorem appendSubKeySigs_fresh (sk : SubKey) (hg : goodSubKey sk = true) :
    appendSubKeySigs { isSecret := sk.isSecret, subKey := sk.subKey }
        (sk.revocationSignatures ++ sk.bindingSignatures) = sk := by
  simp only [goodSubKey, Bool.and_eq_true, List.all_eq_true] at hg
  obtain ⟨hrev, hbind⟩ := hg
  have hrevT : ∀ x ∈ sk.revocationSignatures,
      x.signatureType = SigType.subkey_revocation := fun x hx => by
    have := hrev x hx; simpa [beq_iff_eq] using this
  have hbindT : ∀ x ∈ sk.bindingSignatures,
      x.signatureType = SigType.subkey_binding := fun x hx => by
    have := hbind x hx; simpa [beq_iff_eq] using this
  unfold appendSubKeySigs
  rw [List.filter_append, List.filter_append,
    filter_of_all (fun s => s.signatureType == SigType.subkey_revocation)
      sk.revocationSignatures (fun x hx => by simp [hrevT x hx]),
    filter_of_none (fun s => s.signatureType == SigType.subkey_binding)
      sk.revocationSignatures (fun x hx => by simp [hrevT x hx]),
    filter_of_none (fun s => s.signatureType == SigType.subkey_revocation)
      sk.bindingSignatures (fun x hx => by simp [hbindT x hx]),
    filter_of_all (fun s => s.signatureType == SigType.subkey_binding)
      sk.bindingSignatures (fun x hx => by simp [hbindT x hx])]
  simp

/-- The builder over one serialized subkey block appends exactly that subkey. -/
theorem build_subkey_block (sk : SubKey) (pr : Option (Bool × KeyPacket))
    (pid : Option Nat) (rv dr : List Signature) (us : List User) (sks : List SubKey)
    (ust skt : Bool) (hg : goodSubKey sk = true) :
    List.foldl buildStep ⟨pr, pid, rv, dr, us, sks, ust, skt⟩
        (SubKey.toPacketlist sk) =
      ⟨pr, pid, rv, dr, us, sks ++ [sk], false, true⟩ := by
  have hsigs : ∀ s ∈ sk.revocationSignatures ++ sk.bindingSignatures,
      s.signatureType = SigType.subkey_binding ∨
        s.signatureType = SigType.subkey_revocation := by
    simp only [goodSubKey, Bool.and_eq_true, List.all_eq_true] at hg
    obtain ⟨hrev, hbind⟩ := hg
    intro s hs
    rcases List.mem_append.mp hs with hs2 | hs2
    · exact Or.inr (by have := hrev s hs2; simpa [beq_iff_eq] using this)
    · exact Or.inl (by have := hbind s hs2; simpa [beq_iff_eq] using this)
  rw [SubKey.toPacketlist, List.foldl_cons]
  have hb : buildStep ⟨pr, pid, rv, dr, us, sks, ust, skt⟩
      (.key true sk.isSecret sk.subKey) =
      ⟨pr, pid, rv, dr, us,
       sks ++ [{ isSecret := sk.isSecret, subKey := sk.subKey }], false, true⟩ := rfl
  rw [hb, build_subKeySigs _ _ _ _ _ _ _ _ _ hsigs, appendSubKeySigs_fresh sk hg]

/-- The builder over a run of serialized subkey blocks appends exactly those
subkeys. -/
theorem build_subkey_blocks (sks2 : List SubKey) :
    ∀ (pr : Option (Bool × KeyPacket)) (pid : Option Nat) (rv dr : List Signature)
      (us : List User) (sks : List SubKey) (ust skt : Bool),
      sks2.all goodSubKey = true →
      List.foldl buildStep ⟨pr, pid, rv, dr, us, sks, ust, skt⟩
          ((sks2.map SubKey.toPacketlist).flatten) =
        ⟨pr, pid, rv, dr, us, sks ++ sks2,
         (if sks2.isEmpty then ust else false),
         (if sks2.isEmpty then skt else true)⟩ := by
  induction sks2 with
  | nil => intro pr pid rv dr us sks ust skt _; simp
  | cons sk sks2 ih =>
    intro pr pid rv dr us sks ust skt hg
    simp only [List.all_cons, Bool.and_eq_true] at hg
    rw [List.map_cons, List.flatten_cons, List.foldl_append,
      build_subkey_block sk pr pid rv dr us sks ust skt hg.1,
      ih pr pid rv dr us (sks ++ [sk]) false true hg.2]
    cases sks2 <;> simp

/-- Building the serialization of a structurally good key reconstructs the key. -/
theorem goodKey_build_roundtrip (k : Key) (hg : goodKey k = true) :
    buildKey (Key.toPacketlist k) = Except.ok k := by
  obtain ⟨sec, kp, rv, dr, usrs, sks⟩ := k
  simp only [goodKey, Bool.and_eq_true] at hg
  obtain ⟨⟨⟨⟨hne, hrv⟩, hdr⟩, hus⟩, hsk⟩ := hg
  have hrvT : ∀ x ∈ rv, x.signatureType = SigType.key_revocation := fun x hx => by
    have := List.all_eq_true.mp hrv x hx
    simpa [beq_iff_eq] using this
  have hdrT : ∀ x ∈ dr, x.signatureType = SigType.key_sig ∨
      x.signatureType = SigType.cert_revocation := fun x hx => by
    have := List.all_eq_true.mp hdr x hx
    simpa [Bool.or_eq_true, beq_iff_eq] using this
  have hfold :
      List.foldl buildStep {} (Key.toPacketlist ⟨sec, kp, rv, dr, usrs, sks⟩) =
      ⟨some (sec, kp), some kp.keyId, rv, dr, usrs, sks,
       (if sks.isEmpty then (if usrs.isEmpty then false else true) else false),
       (if sks.isEmpty then false else true)⟩ := by
    rw [Key.toPacketlist, List.foldl_cons]
    have h0 : buildStep {} (.key false sec kp) =
        ⟨some (sec, kp), some kp.keyId, [], [], [], [], false, false⟩ := rfl
    rw [h0, List.foldl_append, List.foldl_append]
    have hA : ∀ s ∈ rv ++ dr, s.signatureType = SigType.key_revocation ∨
        s.signatureType = SigType.key_sig ∨
        s.signatureType = SigType.cert_revocation := by
      intro s hs
      rcases List.mem_append.mp hs with hs2 | hs2
      · exact Or.inl (hrvT s hs2)
      · exact Or.inr (hdrT s hs2)
    rw [build_sigs_preUser (rv ++ dr) _ _ _ _ _ _ hA]
    have hf1 : (rv ++ dr).filter
        (fun s => s.signatureType == SigType.key_revocation) = rv := by
      rw [List.filter_append,
        filter_of_all _ rv (fun x hx => by simp [hrvT x hx]),
        filter_of_none _ dr (fun x hx => by
          rcases hdrT x hx with h2 | h2 <;> simp [h2]),
        List.append_nil]
    have hf2 : (rv ++ dr).filter
        (fun s => s.signatureType == SigType.key_sig ||
          s.signatureType == SigType.cert_revocation) = dr := by
      rw [List.filter_append,
        filter_of_none _ rv (fun x hx => by simp [hrvT x hx]),
        filter_of_all _ dr (fun x hx => by
          rcases hdrT x hx with h2 | h2 <;> simp [h2]),
        List.nil_append]
    rw [hf1, hf2, List.nil_append, List.nil_append,
      build_user_blocks usrs kp.keyId _ _ _ _ _ _ _ hus,
      build_subkey_blocks sks _ _ _ _ _ _ _ _ hsk, List.nil_append, List.nil_append]
  simp only [buildKey, hfold]
  have hue : usrs.isEmpty = false := by simpa using hne
  simp [hue]

/-- C4: building a well-formed packet sequence (one primary key packet, at least one
user, packets in the canonical order of spec section 4.1 — i.e. the serialization of a
structurally good key) and serializing the result yields exactly the input
sequence. -/
theorem toPacketlist_build_roundtrip (p : List Packet) (h : WellFormed p) :
    (buildKey p).map Key.toPacketlist = Except.ok p := by
  obtain ⟨k, hg, rfl⟩ := h
  rw [goodKey_build_roundtrip k hg]
  rfl

/-- C4 witness: the round trip at a concrete key populating every bucket. -/
theorem toPacketlist_build_roundtrip_witness :
    WellFormed (Key.toPacketlist c4Key) ∧
    (buildKey (Key.toPacketlist c4Key)).map Key.toPacketlist =
      Except.ok (Key.toPacketlist c4Key) :=
  ⟨⟨c4Key, rfl, rfl⟩, toPacketlist_build_roundtrip _ ⟨c4Key, rfl, rfl⟩⟩

end Opgp
